import Mathlib

/-!
Verification of the GGW-World simulation core (src/lib.rs, src/interior.rs,
src/config.rs) against its natural-language specification.

The Rust code computes with IEEE floats (`f32`/`f64`); the embedding models
that arithmetic exactly over an arbitrary linear ordered field `F` (taken as
`ℚ` for concrete evaluation and `ℝ` when real transcendental functions are
needed).  The transcendental operations `sin`, `cos`, `sqrt`, `atan2` and the
constant `π` used by the orbital code are passed in as an explicit `TrigOps`
record, so every definition stays computable; theorems that need their
mathematical properties take them as hypotheses, which are discharged with
`Real.sin`, `Real.cos`, `Real.sqrt`, `Complex.arg` and `Real.pi` in witnesses.
Machine-integer ids (`u64`) are modelled as `ℕ` with explicit `% 2^64` where
the source increments them.  Rust `assert!` failures (panics) are modelled by
`Option`: a function that can panic returns `none` exactly when the assertion
fires.
-/

set_option linter.unusedSectionVars false

namespace GGW

/-- The transcendental primitives of `f64` used by the orbital code
(`sin`, `cos`, `sqrt`, `atan2` and the constant `PI`), abstracted so that
the embedding is parametric in them.  `atan2 y x` matches Rust `y.atan2(x)`. -/
structure TrigOps (F : Type) where
  sin : F → F
  cos : F → F
  sqrt : F → F
  atan2 : F → F → F
  pi : F

variable {F : Type} [LinearOrderedField F] [FloorRing F]

/-- `Vec2` from src/lib.rs: 2-D double-precision vector. -/
structure Vec2 (F : Type) where
  x : F
  y : F
deriving DecidableEq

/-- `Vec2::zero`. -/
def Vec2.zero : Vec2 F := ⟨0, 0⟩

/-- `Vec2::add`. -/
def Vec2.add (v w : Vec2 F) : Vec2 F := ⟨v.x + w.x, v.y + w.y⟩

/-- `Vec2::sub`. -/
def Vec2.sub (v w : Vec2 F) : Vec2 F := ⟨v.x - w.x, v.y - w.y⟩

/-- `Vec2::scale`. -/
def Vec2.scale (v : Vec2 F) (k : F) : Vec2 F := ⟨v.x * k, v.y * k⟩

/-- `Vec2::dot`. -/
def Vec2.dot (v w : Vec2 F) : F := v.x * w.x + v.y * w.y

/-- `Vec2::length_squared`. -/
def Vec2.length_squared (v : Vec2 F) : F := v.x * v.x + v.y * v.y

/-- `Vec2::length` (uses `f64::sqrt`). -/
def Vec2.length (ops : TrigOps F) (v : Vec2 F) : F := ops.sqrt v.length_squared

/-- `HullShape` from src/lib.rs. -/
structure HullShape (F : Type) where
  vertices : List (Vec2 F)

/-- `HullShape::bounding_radius`: max vertex distance from origin, with
`fold(0.0, f64::max)`. -/
def HullShape.bounding_radius (ops : TrigOps F) (s : HullShape F) : F :=
  (s.vertices.map (Vec2.length ops)).foldl max 0

/-- `OrbitState` from src/lib.rs. -/
structure OrbitState (F : Type) where
  semi_major_axis : F
  eccentricity : F
  arg_of_periapsis : F
  mean_anomaly_at_epoch : F
  epoch : F
deriving DecidableEq

/-- `BodyType` from src/lib.rs. -/
inductive BodyType
  | Ship
  | Asteroid
  | Debris
  | Missile
deriving DecidableEq

/-- `BodyState` from src/lib.rs.  The `u64` id is a natural number
(arithmetic on it is done mod `2^64` where the source increments it). -/
structure BodyState (F : Type) where
  id : ℕ
  mass : F
  radius : F
  orbit : OrbitState F
  position : Vec2 F
  velocity : Vec2 F
  body_type : BodyType
  hull_shape : Option (HullShape F)

/-- `normalize_angle` from src/lib.rs brings an angle into `(-π, π]` by
repeatedly adding / subtracting `2π` (two `while` loops).  For `0 < pi` the
loops compute exactly the representative `angle - 2π⌈(angle-π)/(2π)⌉`; the
embedding uses that closed form (the loops would not terminate for a
non-archimedean `F`), and `normalize_angle_spec` below proves it lands in
`(-pi, pi]` at distance a multiple of `2π`, which is the loops' defining
property. -/
def normalize_angle (ops : TrigOps F) (angle : F) : F :=
  angle - 2 * ops.pi * (⌈(angle - ops.pi) / (2 * ops.pi)⌉ : ℤ)

/-- `clamp` from src/lib.rs. -/
def clamp (value min_ max_ : F) : F :=
  if value < min_ then min_ else if value > max_ then max_ else value

/-- The Newton–Raphson loop inside `orbit_to_cartesian` (src/lib.rs lines
203–215): at most `fuel` iterations; break before stepping when
`|f'| < 1e-12`, break after stepping when `|δ| < 1e-12`. -/
def kepler_newton (ops : TrigOps F) (e m : F) : ℕ → F → F
  | 0, x => x
  | n + 1, x =>
    let f := x - e * ops.sin x - m
    let f_prime := 1 - e * ops.cos x
    if |f_prime| < 1e-12 then x
    else
      let delta := f / f_prime
      let x1 := x - delta
      if |delta| < 1e-12 then x1 else kepler_newton ops e m n x1

/-- The precondition asserted at the top of `orbit_to_cartesian`. -/
def orbit_precond (orbit : OrbitState F) : Prop :=
  0 < orbit.semi_major_axis ∧ 0 ≤ orbit.eccentricity ∧ orbit.eccentricity < 1

instance (orbit : OrbitState F) : Decidable (orbit_precond orbit) := by
  unfold orbit_precond; infer_instance

/-- `orbit_to_cartesian` from src/lib.rs.  The two `assert!`s are modelled by
returning `none` (panic) when the precondition fails. -/
def orbit_to_cartesian (ops : TrigOps F) (orbit : OrbitState F) (mu t : F) :
    Option (Vec2 F × Vec2 F) :=
  if orbit_precond orbit then
    let a := orbit.semi_major_axis
    let e := orbit.eccentricity
    let n := ops.sqrt (mu / (a * a * a))
    let dt := t - orbit.epoch
    let m := normalize_angle ops (orbit.mean_anomaly_at_epoch + n * dt)
    let e_anom := kepler_newton ops e m 32 (if e < 0.8 then m else ops.pi)
    let cos_e := ops.cos e_anom
    let sin_e := ops.sin e_anom
    let factor := 1 - e * cos_e
    let sqrt_one_minus_e2 := ops.sqrt (max (1 - e * e) 0)
    let x_orb := a * (cos_e - e)
    let y_orb := a * sqrt_one_minus_e2 * sin_e
    let vx_orb := -a * sin_e * n / factor
    let vy_orb := a * sqrt_one_minus_e2 * cos_e * n / factor
    let cos_w := ops.cos orbit.arg_of_periapsis
    let sin_w := ops.sin orbit.arg_of_periapsis
    some (⟨cos_w * x_orb - sin_w * y_orb, sin_w * x_orb + cos_w * y_orb⟩,
          ⟨cos_w * vx_orb - sin_w * vy_orb, sin_w * vx_orb + cos_w * vy_orb⟩)
  else none

/-- `cartesian_to_orbit` from src/lib.rs.  The `assert!`s (nonzero angular
momentum; finite positive semi-major axis) are modelled by `none`.  In a field
`-mu/(2*0) = 0`, so the `0 < a` test also rejects the zero-energy input that
Rust rejects through `is_finite`; every other value of the model is finite,
so the `is_finite` conjunct is otherwise vacuous here. -/
def cartesian_to_orbit (ops : TrigOps F) (position velocity : Vec2 F)
    (mu t : F) : Option (OrbitState F) :=
  let r := Vec2.length ops position
  let v := Vec2.length ops velocity
  let h := position.x * velocity.y - position.y * velocity.x
  if |h| > 0 then
    let energy := 0.5 * v * v - mu / r
    let a := -mu / (2 * energy)
    if 0 < a then
      let v_sq := v * v
      let v_radial := if 0 < r then position.dot velocity / r else 0
      let term1 := v_sq - mu / r
      let e_vec := (((position.scale term1).sub
        ((velocity.scale v_radial).scale r)).scale (1 / mu))
      let e0 := Vec2.length ops e_vec
      let e := if e0 < 1e-12 then 0 else e0
      let omega0 := ops.atan2 e_vec.y e_vec.x
      let omega := if e = 0 then 0 else omega0
      let r_hat := if 0 < r then position.scale (1 / r) else Vec2.zero
      let true_anomaly := normalize_angle ops (ops.atan2 r_hat.y r_hat.x - omega)
      let cos_nu := ops.cos true_anomaly
      let sin_nu := ops.sin true_anomaly
      let cos_e := clamp ((e + cos_nu) / (1 + e * cos_nu)) (-1) 1
      let sin_e := clamp (ops.sqrt (max (1 - e * e) 0) * sin_nu / (1 + e * cos_nu)) (-1) 1
      let e_anom := ops.atan2 sin_e cos_e
      let mean_anomaly := e_anom - e * ops.sin e_anom
      some ⟨a, e, omega, mean_anomaly, t⟩
    else none
  else none

/-- The Newton–Raphson solver exactly as §4.1 of the spec describes it:
seed `E = M` for `e < 0.8`, else `E = π`; at most 32 iterations; early exit
when the derivative magnitude `1 - e·cos E` is below `1e-12` (before
stepping) or when the step magnitude is below `1e-12` (after stepping). -/
def specNewtonSolve (ops : TrigOps F) (e m : F) : ℕ → F → F
  | 0, x => x
  | fuel + 1, x =>
    let derivative := 1 - e * ops.cos x
    if |derivative| < 1e-12 then x
    else
      let step := (x - e * ops.sin x - m) / derivative
      let next := x - step
      if |step| < 1e-12 then next else specNewtonSolve ops e m fuel next

/-- The reference algorithm for `orbit_to_cartesian` as written in §4.1 of the
spec: mean motion `n = sqrt(μ/a³)`, mean anomaly `M = M0 + n·(t - epoch)`
normalized to `(-π, π]`, eccentric anomaly by Newton–Raphson
(`specNewtonSolve`), then the orbital-plane position
`(a(cos E - e), a·sqrt(1-e²)·sin E)` and its velocity, rotated by
`arg_of_periapsis` into the inertial frame.  Violating the precondition
`a > 0`, `0 ≤ e < 1` is a fatal assertion (`none`), never a recoverable
condition. -/
def specOrbitToCartesian (ops : TrigOps F) (orbit : OrbitState F) (mu t : F) :
    Option (Vec2 F × Vec2 F) :=
  if orbit_precond orbit then
    let a := orbit.semi_major_axis
    let e := orbit.eccentricity
    let n := ops.sqrt (mu / (a * a * a))
    let m := normalize_angle ops (orbit.mean_anomaly_at_epoch + n * (t - orbit.epoch))
    let seed := if e < 0.8 then m else ops.pi
    let ecc_anom := specNewtonSolve ops e m 32 seed
    let root_term := ops.sqrt (max (1 - e * e) 0)
    let plane_x := a * (ops.cos ecc_anom - e)
    let plane_y := a * root_term * ops.sin ecc_anom
    let plane_vx := -a * ops.sin ecc_anom * n / (1 - e * ops.cos ecc_anom)
    let plane_vy := a * root_term * ops.cos ecc_anom * n / (1 - e * ops.cos ecc_anom)
    let cw := ops.cos orbit.arg_of_periapsis
    let sw := ops.sin orbit.arg_of_periapsis
    some (⟨cw * plane_x - sw * plane_y, sw * plane_x + cw * plane_y⟩,
          ⟨cw * plane_vx - sw * plane_vy, sw * plane_vx + cw * plane_vy⟩)
  else none

/-- The two Newton solvers (source loop and spec description) coincide. -/
theorem specNewtonSolve_eq_kepler_newton (ops : TrigOps F) (e m : F) :
    ∀ fuel x, specNewtonSolve ops e m fuel x = kepler_newton ops e m fuel x := by
  intro fuel
  induction fuel with
  | zero => intro x; rfl
  | succ n ih =>
    intro x
    simp only [specNewtonSolve, kepler_newton]
    split
    · rfl
    · split
      · rfl
      · exact ih _

/-- `normalize_angle` satisfies the defining property of the source's two
`while` loops: the result is in `(-pi, pi]` and differs from the input by an
integer multiple of `2π`. -/
theorem normalize_angle_spec (ops : TrigOps F) (hpi : 0 < ops.pi) (angle : F) :
    -ops.pi < normalize_angle ops angle ∧ normalize_angle ops angle ≤ ops.pi ∧
      ∃ k : ℤ, angle - normalize_angle ops angle = 2 * ops.pi * k := by
  have h2pi : 0 < 2 * ops.pi := by linarith
  have hle : ((⌈(angle - ops.pi) / (2 * ops.pi)⌉ : ℤ) : F) <
      (angle - ops.pi) / (2 * ops.pi) + 1 := by
    have := Int.ceil_lt_add_one ((angle - ops.pi) / (2 * ops.pi))
    exact this
  have hge : (angle - ops.pi) / (2 * ops.pi) ≤
      ((⌈(angle - ops.pi) / (2 * ops.pi)⌉ : ℤ) : F) := Int.le_ceil _
  constructor
  · unfold normalize_angle
    have := (mul_lt_mul_left h2pi).mpr hle
    rw [mul_add, mul_div_cancel₀ _ (ne_of_gt h2pi)] at this
    nlinarith
  constructor
  · unfold normalize_angle
    have := (mul_le_mul_left h2pi).mpr hge
    rw [mul_div_cancel₀ _ (ne_of_gt h2pi)] at this
    nlinarith
  · exact ⟨⌈(angle - ops.pi) / (2 * ops.pi)⌉, by unfold normalize_angle; ring⟩

/-- A square-root function satisfying `sqrtSpec` maps squares of nonnegative
numbers back to them. -/
theorem sqrt_of_sq (ops : TrigOps F)
    (hsqrt : ∀ x : F, 0 ≤ x → 0 ≤ ops.sqrt x ∧ ops.sqrt x ^ 2 = x)
    (x : F) (hx : 0 ≤ x) : ops.sqrt (x ^ 2) = x := by
  obtain ⟨h0, h2⟩ := hsqrt (x ^ 2) (sq_nonneg x)
  have hfac : (ops.sqrt (x ^ 2) - x) * (ops.sqrt (x ^ 2) + x) = 0 := by
    linear_combination h2
  rcases mul_eq_zero.mp hfac with h | h
  · linarith
  · have hx0 : x = 0 := by linarith
    simp [hx0] at h ⊢
    linarith

set_option maxHeartbeats 2000000 in
/-- Algebraic core of the orbit round-trip: a Cartesian state generated from
eccentric anomaly `E` on the ellipse described by `a`, `e`, `w` (with
`cE, sE, cw, sw, n, s` standing for the cos/sin of `E` and `w`, the mean
motion and the square root of `1-e*e`, given by
their defining equations as hypotheses) is mapped by `cartesian_to_orbit` back
to the same `a`, `e` and `ω` — exactly, whatever `E` is, because the generated
point lies exactly on that ellipse. -/
theorem cartesian_to_orbit_recovers (ops : TrigOps F)
    (hsqrt : ∀ x : F, 0 ≤ x → 0 ≤ ops.sqrt x ∧ ops.sqrt x ^ 2 = x)
    (a e w mu t cE sE cw sw n s px py vx vy : F)
    (ha : 0 < a) (hmu : 0 < mu) (he_lb : (1e-12 : F) ≤ e) (he1 : e < 1)
    (hpyth : sE ^ 2 + cE ^ 2 = 1) (hrot : sw ^ 2 + cw ^ 2 = 1)
    (hn2 : n ^ 2 * (a * a * a) = mu) (hn0 : 0 ≤ n)
    (hs2 : s ^ 2 = 1 - e * e) (hs0 : 0 ≤ s)
    (hatanw : ops.atan2 (e * sw) (e * cw) = w)
    (hpx : px = cw * (a * (cE - e)) - sw * (a * s * sE))
    (hpy : py = sw * (a * (cE - e)) + cw * (a * s * sE))
    (hvx : vx * (1 - e * cE) = cw * (-(a * sE * n)) - sw * (a * s * cE * n))
    (hvy : vy * (1 - e * cE) = sw * (-(a * sE * n)) + cw * (a * s * cE * n)) :
    ∃ orb : OrbitState F,
      cartesian_to_orbit ops ⟨px, py⟩ ⟨vx, vy⟩ mu t = some orb ∧
        orb.semi_major_axis = a ∧ orb.eccentricity = e ∧
        orb.arg_of_periapsis = w := by
  have htiny : (0 : F) < 1e-12 := by norm_num
  have hepos : (0 : F) < e := lt_of_lt_of_le htiny he_lb
  have hcEle : cE ≤ 1 := by
    clear hpx hpy hvx hvy hatanw hsqrt hn2 hs2 he_lb
    nlinarith [sq_nonneg sE, sq_nonneg (cE - 1)]
  have hf : 0 < 1 - e * cE := by
    clear hpx hpy hvx hvy hatanw hsqrt hn2 hs2 he_lb hpyth hrot
    nlinarith
  have hspos : 0 < s := by
    clear hpx hpy hvx hvy hatanw hsqrt hn2 he_lb hpyth hrot
    rcases eq_or_lt_of_le hs0 with h | h
    · exfalso
      have hz : s ^ 2 = 0 := by rw [← h]; ring
      nlinarith
    · exact h
  have hnpos : 0 < n := by
    clear hpx hpy hvx hvy hatanw hsqrt hs2 he_lb hpyth hrot
    rcases eq_or_lt_of_le hn0 with h | h
    · exfalso
      have hz : n ^ 2 = 0 := by rw [← h]; ring
      rw [hz] at hn2
      simp at hn2
      linarith
    · exact h
  have hfne : (1 : F) - e * cE ≠ 0 := hf.ne'
  have hane : a ≠ 0 := ha.ne'
  have hmune : mu ≠ 0 := hmu.ne'
  -- position length
  have hxy2 : px * px + py * py = (a * (1 - e * cE)) ^ 2 := by
    subst hpx hpy
    linear_combination ((a * (cE - e)) ^ 2 + (a * s * sE) ^ 2) * hrot +
      a ^ 2 * sE ^ 2 * hs2 + a ^ 2 * (1 - e * e) * hpyth
  have haf0 : 0 ≤ a * (1 - e * cE) := le_of_lt (mul_pos ha hf)
  have hplen : Vec2.length ops (⟨px, py⟩ : Vec2 F) = a * (1 - e * cE) := by
    have h1 : Vec2.length ops (⟨px, py⟩ : Vec2 F) = ops.sqrt (px * px + py * py) := rfl
    rw [h1, hxy2, sqrt_of_sq ops hsqrt _ haf0]
  -- velocity length squared
  have hvsq0 : 0 ≤ vx * vx + vy * vy := by
    clear hpx hpy hvx hvy hatanw hsqrt
    nlinarith [sq_nonneg vx, sq_nonneg vy]
  have hvlen : Vec2.length ops (⟨vx, vy⟩ : Vec2 F) * Vec2.length ops (⟨vx, vy⟩ : Vec2 F)
      = vx * vx + vy * vy := by
    have h1 : Vec2.length ops (⟨vx, vy⟩ : Vec2 F) = ops.sqrt (vx * vx + vy * vy) := rfl
    obtain ⟨hge, hsq⟩ := hsqrt _ hvsq0
    rw [h1, ← pow_two, hsq]
  -- angular momentum
  have hh1 : (px * vy - py * vx) * (1 - e * cE) = a ^ 2 * s * n * (1 - e * cE) := by
    have hstep : (px * vy - py * vx) * (1 - e * cE)
        = px * (vy * (1 - e * cE)) - py * (vx * (1 - e * cE)) := by ring
    rw [hstep, hvx, hvy, hpx, hpy]
    linear_combination (a ^ 2 * s * n * ((1 - e * cE) + sE ^ 2 + cE ^ 2 - 1)) * hrot +
      (a ^ 2 * s * n) * hpyth
  have hhval : px * vy - py * vx = a ^ 2 * s * n := mul_right_cancel₀ hfne hh1
  -- radial dot product
  have hd1 : (px * vx + py * vy) * (1 - e * cE) = a ^ 2 * n * e * sE * (1 - e * cE) := by
    have hstep : (px * vx + py * vy) * (1 - e * cE)
        = px * (vx * (1 - e * cE)) + py * (vy * (1 - e * cE)) := by ring
    rw [hstep, hvx, hvy, hpx, hpy]
    linear_combination (a ^ 2 * n * e * sE * (1 - e * cE)) * hrot
      + (a ^ 2 * n * cE * sE * (sw ^ 2 + cw ^ 2)) * hs2
  have hdot : px * vx + py * vy = a ^ 2 * n * e * sE := mul_right_cancel₀ hfne hd1
  -- squared speed, cleared of denominators
  have hK : sE ^ 2 + s ^ 2 * cE ^ 2 = 1 - e * e * (cE * cE) := by
    linear_combination cE ^ 2 * hs2 + hpyth
  have hAB : (vx * (1 - e * cE)) ^ 2 + (vy * (1 - e * cE)) ^ 2
      = a ^ 2 * n ^ 2 * (sE ^ 2 + s ^ 2 * cE ^ 2) := by
    rw [hvx, hvy]
    linear_combination (a ^ 2 * n ^ 2 * (sE ^ 2 + s ^ 2 * cE ^ 2)) * hrot
  have hVV : (vx * vx + vy * vy) * ((1 - e * cE) * (1 - e * cE))
      = a ^ 2 * n ^ 2 * (1 - e * e * (cE * cE)) := by
    linear_combination hAB + (a ^ 2 * n ^ 2) * hK
  have hterm1p : (vx * vx + vy * vy) * (a * (1 - e * cE)) = mu * (1 + e * cE) := by
    have h1 : (vx * vx + vy * vy) * (a * (1 - e * cE)) * (1 - e * cE)
        = mu * (1 + e * cE) * (1 - e * cE) := by
      linear_combination a * hVV + (1 - e * e * (cE * cE)) * hn2
    exact mul_right_cancel₀ hfne h1
  have henergyval : (0.5 : F) * (vx * vx + vy * vy) - mu / (a * (1 - e * cE))
      = -(mu / (2 * a)) := by
    rw [show (0.5 : F) = 1 / 2 from by norm_num]
    field_simp
    linear_combination (2 * a) * hterm1p
  have hterm1 : (vx * vx + vy * vy) - mu / (a * (1 - e * cE))
      = mu * e * cE / (a * (1 - e * cE)) := by
    field_simp
    linear_combination hterm1p
  have hcx : vx * (a ^ 2 * n * e * sE / (a * (1 - e * cE))) * (a * (1 - e * cE))
      = vx * (a ^ 2 * n * e * sE) := by
    rw [mul_assoc, div_mul_cancel₀ _ (mul_ne_zero hane hfne)]
  have hcy : vy * (a ^ 2 * n * e * sE / (a * (1 - e * cE))) * (a * (1 - e * cE))
      = vy * (a ^ 2 * n * e * sE) := by
    rw [mul_assoc, div_mul_cancel₀ _ (mul_ne_zero hane hfne)]
  have hexval : (px * (mu * e * cE / (a * (1 - e * cE))) - vx * (a ^ 2 * n * e * sE)) * (1 / mu)
      = e * cw := by
    field_simp
    linear_combination (mu * e * cE) * hpx - (a ^ 3 * n * e * sE) * hvx
      + (mu * e * a * cw) * hpyth + (a * e * sE ^ 2 * cw + a * e * s * sE * cE * sw) * hn2
  have heyval : (py * (mu * e * cE / (a * (1 - e * cE))) - vy * (a ^ 2 * n * e * sE)) * (1 / mu)
      = e * sw := by
    field_simp
    linear_combination (mu * e * cE) * hpy - (a ^ 3 * n * e * sE) * hvy
      + (mu * e * a * sw) * hpyth + (a * e * sE ^ 2 * sw - a * e * s * sE * cE * cw) * hn2
  have helen2 : (e * cw) * (e * cw) + (e * sw) * (e * sw) = e ^ 2 := by
    linear_combination e ^ 2 * hrot
  have helen : Vec2.length ops (⟨e * cw, e * sw⟩ : Vec2 F) = e := by
    have h1 : Vec2.length ops (⟨e * cw, e * sw⟩ : Vec2 F)
        = ops.sqrt ((e * cw) * (e * cw) + (e * sw) * (e * sw)) := rfl
    rw [h1, helen2, sqrt_of_sq ops hsqrt e (le_of_lt hepos)]
  have habs : |a ^ 2 * s * n| > 0 :=
    abs_pos.mpr (ne_of_gt (mul_pos (mul_pos (pow_pos ha 2) hspos) hnpos))
  simp only [cartesian_to_orbit, Vec2.scale, Vec2.sub, Vec2.dot]
  rw [hplen, hhval, if_pos habs]
  rw [show (0.5 : F) * Vec2.length ops (⟨vx, vy⟩ : Vec2 F) * Vec2.length ops (⟨vx, vy⟩ : Vec2 F)
      = (0.5 : F) * (Vec2.length ops (⟨vx, vy⟩ : Vec2 F) * Vec2.length ops (⟨vx, vy⟩ : Vec2 F))
      from by ring, hvlen, henergyval]
  rw [show -mu / (2 * -(mu / (2 * a))) = a from by field_simp; ring]
  rw [if_pos ha, if_pos (mul_pos ha hf), if_pos (mul_pos ha hf), hdot, hcx, hcy, hterm1,
    hexval, heyval, helen, if_neg (not_lt.mpr he_lb), if_neg hepos.ne', hatanw]
  exact ⟨_, rfl, rfl, rfl, rfl⟩

/-- C2 (amended): for an orbit with `a > 0`, `1e-12 ≤ e < 1`,
`arg_of_periapsis ∈ (-π, π]` and `μ > 0`, converting to Cartesian at any time
`t` and back recovers `semi_major_axis`, `eccentricity` and `arg_of_periapsis`
exactly (in the exact-arithmetic model), in particular within the claimed
`1e-3` / `1e-9` / `1e-9` absolute tolerances.  The hypotheses on `ops` are the
defining properties of real `sin`/`cos`/`sqrt`/`atan2`. -/
theorem orbit_roundtrip_recovers_elements (ops : TrigOps F)
    (hsc : ∀ x, ops.sin x ^ 2 + ops.cos x ^ 2 = 1)
    (hsqrt : ∀ x : F, 0 ≤ x → 0 ≤ ops.sqrt x ∧ ops.sqrt x ^ 2 = x)
    (hatan2 : ∀ r θ : F, 0 < r → -ops.pi < θ → θ ≤ ops.pi →
      ops.atan2 (r * ops.sin θ) (r * ops.cos θ) = θ)
    (orbit : OrbitState F) (mu t : F)
    (ha : 0 < orbit.semi_major_axis) (hmu : 0 < mu)
    (he_lb : (1e-12 : F) ≤ orbit.eccentricity) (he1 : orbit.eccentricity < 1)
    (hw1 : -ops.pi < orbit.arg_of_periapsis) (hw2 : orbit.arg_of_periapsis ≤ ops.pi) :
    ∃ pv : Vec2 F × Vec2 F, ∃ orb2 : OrbitState F,
      orbit_to_cartesian ops orbit mu t = some pv ∧
      cartesian_to_orbit ops pv.1 pv.2 mu t = some orb2 ∧
      orb2.semi_major_axis = orbit.semi_major_axis ∧
      orb2.eccentricity = orbit.eccentricity ∧
      orb2.arg_of_periapsis = orbit.arg_of_periapsis ∧
      |orb2.semi_major_axis - orbit.semi_major_axis| ≤ 1e-3 ∧
      |orb2.eccentricity - orbit.eccentricity| ≤ 1e-9 ∧
      |orb2.arg_of_periapsis - orbit.arg_of_periapsis| ≤ 1e-9 := by
  obtain ⟨a, e, w, m0, ep⟩ := orbit
  simp only at ha he_lb he1 hw1 hw2 ⊢
  have htiny : (0 : F) < 1e-12 := by norm_num
  have hepos : (0 : F) < e := lt_of_lt_of_le htiny he_lb
  have he0 : (0 : F) ≤ e := le_of_lt hepos
  have hpre : orbit_precond (⟨a, e, w, m0, ep⟩ : OrbitState F) := ⟨ha, he0, he1⟩
  have hcEle : ops.cos (kepler_newton ops e
      (normalize_angle ops (m0 + ops.sqrt (mu / (a * a * a)) * (t - ep))) 32
      (if e < 0.8 then normalize_angle ops (m0 + ops.sqrt (mu / (a * a * a)) * (t - ep))
       else ops.pi)) ≤ 1 := by
    have h := hsc (kepler_newton ops e
      (normalize_angle ops (m0 + ops.sqrt (mu / (a * a * a)) * (t - ep))) 32
      (if e < 0.8 then normalize_angle ops (m0 + ops.sqrt (mu / (a * a * a)) * (t - ep))
       else ops.pi))
    nlinarith [sq_nonneg (ops.sin (kepler_newton ops e
      (normalize_angle ops (m0 + ops.sqrt (mu / (a * a * a)) * (t - ep))) 32
      (if e < 0.8 then normalize_angle ops (m0 + ops.sqrt (mu / (a * a * a)) * (t - ep))
       else ops.pi))), sq_nonneg (ops.cos (kepler_newton ops e
      (normalize_angle ops (m0 + ops.sqrt (mu / (a * a * a)) * (t - ep))) 32
      (if e < 0.8 then normalize_angle ops (m0 + ops.sqrt (mu / (a * a * a)) * (t - ep))
       else ops.pi)) - 1)]
  rw [orbit_to_cartesian, if_pos hpre]
  simp only
  set n := ops.sqrt (mu / (a * a * a)) with hn_def
  set E := kepler_newton ops e (normalize_angle ops (m0 + n * (t - ep))) 32
    (if e < 0.8 then normalize_angle ops (m0 + n * (t - ep)) else ops.pi) with hE_def
  set s := ops.sqrt (max (1 - e * e) 0) with hs_def
  have hf : 0 < 1 - e * ops.cos E := by nlinarith
  have hfne : (1 : F) - e * ops.cos E ≠ 0 := hf.ne'
  have hn2 : n ^ 2 * (a * a * a) = mu := by
    have h3 : (0 : F) ≤ mu / (a * a * a) := by positivity
    obtain ⟨h4, h5⟩ := hsqrt _ h3
    rw [hn_def, h5]
    field_simp
  have hn0 : 0 ≤ n := (hsqrt _ (by positivity : (0 : F) ≤ mu / (a * a * a))).1
  have hmax : max (1 - e * e) 0 = 1 - e * e := max_eq_left (by nlinarith)
  have hs2 : s ^ 2 = 1 - e * e := by
    obtain ⟨h4, h5⟩ := hsqrt (max (1 - e * e) 0) (le_max_right _ 0)
    rw [hs_def, h5, hmax]
  have hs0 : 0 ≤ s := (hsqrt _ (le_max_right _ 0)).1
  have hatanw : ops.atan2 (e * ops.sin w) (e * ops.cos w) = w := hatan2 e w hepos hw1 hw2
  obtain ⟨orb2, heq, hf1, hf2, hf3⟩ := cartesian_to_orbit_recovers ops hsqrt
    a e w mu t (ops.cos E) (ops.sin E) (ops.cos w) (ops.sin w) n s
    (ops.cos w * (a * (ops.cos E - e)) - ops.sin w * (a * s * ops.sin E))
    (ops.sin w * (a * (ops.cos E - e)) + ops.cos w * (a * s * ops.sin E))
    (ops.cos w * (-a * ops.sin E * n / (1 - e * ops.cos E))
      - ops.sin w * (a * s * ops.cos E * n / (1 - e * ops.cos E)))
    (ops.sin w * (-a * ops.sin E * n / (1 - e * ops.cos E))
      + ops.cos w * (a * s * ops.cos E * n / (1 - e * ops.cos E)))
    ha hmu he_lb he1 (hsc E) (hsc w) hn2 hn0 hs2 hs0 hatanw rfl rfl
    (by field_simp; ring) (by field_simp; ring)
  refine ⟨_, orb2, rfl, heq, hf1, hf2, hf3, ?_, ?_, ?_⟩
  · rw [hf1]; simp; norm_num
  · rw [hf2]; simp; norm_num
  · rw [hf3]; simp; norm_num

/-- The real `f64` primitives idealized over `ℝ`: `Real.sin`, `Real.cos`,
`Real.sqrt`, `atan2 y x = Complex.arg (x + y·i)` and `Real.pi`. -/
noncomputable def realTrigOps : TrigOps ℝ where
  sin := Real.sin
  cos := Real.cos
  sqrt := Real.sqrt
  atan2 := fun y x => Complex.arg ((x : ℂ) + (y : ℂ) * Complex.I)
  pi := Real.pi

/-- `realTrigOps.atan2` recovers the angle of a point given in polar form with
positive radius and angle in `(-π, π]`. -/
theorem realTrigOps_atan2 (r θ : ℝ) (hr : 0 < r) (h1 : -Real.pi < θ)
    (h2 : θ ≤ Real.pi) :
    realTrigOps.atan2 (r * Real.sin θ) (r * Real.cos θ) = θ := by
  show Complex.arg (((r * Real.cos θ : ℝ) : ℂ) + ((r * Real.sin θ : ℝ) : ℂ) * Complex.I) = θ
  have hrw : (((r * Real.cos θ : ℝ) : ℂ) + ((r * Real.sin θ : ℝ) : ℂ) * Complex.I)
      = (r : ℂ) * (Complex.cos (θ : ℂ) + Complex.sin (θ : ℂ) * Complex.I) := by
    rw [← Complex.ofReal_cos, ← Complex.ofReal_sin]
    push_cast
    ring
  rw [hrw]
  exact Complex.arg_mul_cos_add_sin_mul_I hr (Set.mem_Ioc.mpr ⟨h1, h2⟩)

/-- Witness for the amended C2 round-trip theorem: the real orbit
`a = 1, e = 1/2, ω = 1, M₀ = 0, epoch = 0` with `μ = 1` at `t = 0`. -/
theorem orbit_roundtrip_recovers_elements_witness :
    ∃ pv : Vec2 ℝ × Vec2 ℝ, ∃ orb2 : OrbitState ℝ,
      orbit_to_cartesian realTrigOps ⟨1, 1/2, 1, 0, 0⟩ 1 0 = some pv ∧
      cartesian_to_orbit realTrigOps pv.1 pv.2 1 0 = some orb2 ∧
      orb2.semi_major_axis = (1 : ℝ) ∧
      orb2.eccentricity = (1/2 : ℝ) ∧
      orb2.arg_of_periapsis = (1 : ℝ) ∧
      |orb2.semi_major_axis - (1 : ℝ)| ≤ 1e-3 ∧
      |orb2.eccentricity - (1/2 : ℝ)| ≤ 1e-9 ∧
      |orb2.arg_of_periapsis - (1 : ℝ)| ≤ 1e-9 :=
  orbit_roundtrip_recovers_elements realTrigOps
    (fun x => Real.sin_sq_add_cos_sq x)
    (fun x hx => ⟨Real.sqrt_nonneg x, Real.sq_sqrt hx⟩)
    (fun r θ hr h1 h2 => realTrigOps_atan2 r θ hr h1 h2)
    ⟨1, 1/2, 1, 0, 0⟩ 1 0
    (by norm_num) (by norm_num) (by norm_num) (by norm_num)
    (by show -Real.pi < 1; linarith [Real.pi_gt_three])
    (by show (1 : ℝ) ≤ Real.pi; linarith [Real.pi_gt_three])

/-- Counterexample to C2 as stated: the circular orbit `a = 1`, `e = 0`,
`ω = 1` (which satisfies the claim's preconditions `a > 0`, `0 ≤ e < 1`,
`μ = 1 > 0`) round-trips to `arg_of_periapsis = 0`, an absolute error of `1`,
far above the claimed `1e-9`: `cartesian_to_orbit` zeroes `ω` whenever the
recovered eccentricity snaps to `0`. -/
theorem roundtrip_loses_periapsis_at_zero_ecc :
    ∃ pv : Vec2 ℝ × Vec2 ℝ,
      orbit_to_cartesian realTrigOps ⟨1, 0, 1, 0, 0⟩ 1 0 = some pv ∧
      ∃ orb2 : OrbitState ℝ,
        cartesian_to_orbit realTrigOps pv.1 pv.2 1 0 = some orb2 ∧
        orb2.arg_of_periapsis = 0 ∧
        ¬ |orb2.arg_of_periapsis - (1 : ℝ)| ≤ 1e-9 := by
  have hpre : orbit_precond (⟨1, 0, 1, 0, 0⟩ : OrbitState ℝ) :=
    ⟨by norm_num, by norm_num, by norm_num⟩
  have hnorm : normalize_angle realTrigOps ((0 : ℝ) + Real.sqrt (1 / (1 * 1 * 1)) * (0 - 0)) = 0 := by
    rw [normalize_angle]
    have h1 : ((0 : ℝ) + Real.sqrt (1 / (1 * 1 * 1)) * (0 - 0) - realTrigOps.pi)
        / (2 * realTrigOps.pi) = -(1/2) := by
      show ((0 : ℝ) + Real.sqrt (1 / (1 * 1 * 1)) * (0 - 0) - Real.pi) / (2 * Real.pi) = -(1/2)
      rw [show (0 : ℝ) + Real.sqrt (1 / (1 * 1 * 1)) * (0 - 0) = 0 by ring]
      rw [zero_sub]
      rw [div_eq_iff (by positivity : (2 : ℝ) * Real.pi ≠ 0)]
      ring
    rw [h1]
    have h2 : (⌈(-(1/2) : ℝ)⌉ : ℤ) = 0 := by
      rw [Int.ceil_eq_iff] <;> norm_num
    rw [h2]
    push_cast
    ring
  have hE : kepler_newton realTrigOps 0 0 32 0 = 0 := by
    rw [show (32 : ℕ) = 31 + 1 from rfl]
    rw [kepler_newton]
    norm_num
  refine ⟨(⟨Real.cos 1, Real.sin 1⟩, ⟨-Real.sin 1, Real.cos 1⟩), ?_, ?_⟩
  · rw [orbit_to_cartesian, if_pos hpre]
    simp only
    rw [show (realTrigOps.sqrt = Real.sqrt) from rfl,
        show (realTrigOps.pi = Real.pi) from rfl,
        show (realTrigOps.cos = Real.cos) from rfl,
        show (realTrigOps.sin = Real.sin) from rfl]
    rw [hnorm]
    rw [if_pos (by norm_num : (0 : ℝ) < 0.8)]
    rw [hE, Real.cos_zero, Real.sin_zero]
    rw [show ((1 : ℝ) - 0 * 0) = 1 by ring, show ((1 : ℝ) ⊔ 0) = 1 by norm_num,
      Real.sqrt_one]
    rw [show ((1 : ℝ) / (1 * 1 * 1)) = 1 by norm_num, Real.sqrt_one]
    norm_num
  · have hsc1 : Real.sin 1 ^ 2 + Real.cos 1 ^ 2 = 1 := Real.sin_sq_add_cos_sq 1
    have hplen : Vec2.length realTrigOps (⟨Real.cos 1, Real.sin 1⟩ : Vec2 ℝ) = 1 := by
      have h1 : Vec2.length realTrigOps (⟨Real.cos 1, Real.sin 1⟩ : Vec2 ℝ)
          = Real.sqrt (Real.cos 1 * Real.cos 1 + Real.sin 1 * Real.sin 1) := rfl
      rw [h1, show Real.cos 1 * Real.cos 1 + Real.sin 1 * Real.sin 1 = 1 by
        linear_combination hsc1, Real.sqrt_one]
    have hvlen : Vec2.length realTrigOps (⟨-Real.sin 1, Real.cos 1⟩ : Vec2 ℝ) = 1 := by
      have h1 : Vec2.length realTrigOps (⟨-Real.sin 1, Real.cos 1⟩ : Vec2 ℝ)
          = Real.sqrt (-Real.sin 1 * -Real.sin 1 + Real.cos 1 * Real.cos 1) := rfl
      rw [h1, show -Real.sin 1 * -Real.sin 1 + Real.cos 1 * Real.cos 1 = 1 by
        linear_combination hsc1, Real.sqrt_one]
    have hzlen : Vec2.length realTrigOps (⟨(0 : ℝ), 0⟩ : Vec2 ℝ) = 0 := by
      have h1 : Vec2.length realTrigOps (⟨(0 : ℝ), 0⟩ : Vec2 ℝ)
          = Real.sqrt ((0 : ℝ) * 0 + 0 * 0) := rfl
      rw [h1]
      norm_num
    simp only [cartesian_to_orbit, Vec2.scale, Vec2.sub, Vec2.dot]
    rw [hplen, hvlen]
    rw [show Real.cos 1 * Real.cos 1 - Real.sin 1 * -Real.sin 1 = (1 : ℝ) by
      linear_combination hsc1]
    rw [if_pos (show |(1 : ℝ)| > 0 by norm_num)]
    rw [show -(1 : ℝ) / (2 * ((0.5 : ℝ) * 1 * 1 - 1 / 1)) = 1 by norm_num]
    rw [if_pos (show (0 : ℝ) < 1 by norm_num)]
    rw [if_pos (show (0 : ℝ) < 1 by norm_num)]
    rw [show Real.cos 1 * -Real.sin 1 + Real.sin 1 * Real.cos 1 = (0 : ℝ) by ring]
    rw [show (0 : ℝ) / 1 = 0 by norm_num]
    rw [show (1 : ℝ) * 1 - 1 / 1 = 0 by norm_num]
    rw [show (Real.cos 1 * 0 - -Real.sin 1 * 0 * 1) * (1 / 1) = (0 : ℝ) by ring]
    rw [show (Real.sin 1 * 0 - Real.cos 1 * 0 * 1) * (1 / 1) = (0 : ℝ) by ring]
    rw [hzlen]
    rw [if_pos (show (0 : ℝ) < 1e-12 by norm_num)]
    rw [if_pos rfl]
    exact ⟨_, rfl, rfl, by norm_num⟩

/-- C4: under the precondition `a > 0`, `0 ≤ e < 1`, `orbit_to_cartesian`
equals the reference algorithm of the spec (`specOrbitToCartesian`): mean
motion `sqrt(μ/a³)`, mean anomaly normalized into `(-π, π]`, Newton–Raphson
on `E - e sin E - M` with seed `M` (`e < 0.8`) or `π`, at most 32 iterations,
early exit on step or derivative magnitude below `1e-12`, then rotation of the
orbital-plane coordinates by `arg_of_periapsis`; and violating the
precondition is a fatal assertion (modelled by `none`), never a recoverable
condition. -/
theorem orbit_to_cartesian_matches_spec (ops : TrigOps F)
    (orbit : OrbitState F) (mu t : F) :
    orbit_to_cartesian ops orbit mu t = specOrbitToCartesian ops orbit mu t ∧
      (orbit_to_cartesian ops orbit mu t = none ↔ ¬ orbit_precond orbit) := by
  constructor
  · simp only [orbit_to_cartesian, specOrbitToCartesian,
      specNewtonSolve_eq_kepler_newton]
  · simp only [orbit_to_cartesian]
    split
    · simp_all
    · simp_all

/-! ## Ship interior (src/interior.rs, src/config.rs)

The interior code computes with `f32`; the embedding again uses the exact
field `F`.  `Vec<T>` grids are modelled as functions from the flat index
`y * width + x` (the source always indexes them through `Self::idx`), with
the grid length `width * height` made explicit where the source iterates
over the whole vector.  `u32` coordinates are `ℕ`, `i32` coordinates `ℤ`.
`HashMap` lookups become `String → Option _` functions.  `GameConfig.items`
and `GameConfig.resources` are omitted: they are read only by the
`new_test_layout` sample-ship constructor, which no claim touches. -/

/-- `IDEAL_GAS_R` from src/interior.rs. -/
def IDEAL_GAS_R : F := 8.314462618

/-- `ATMOS_DIFFUSION_COEFF` from src/interior.rs. -/
def ATMOS_DIFFUSION_COEFF : F := 0.4

/-- `ATMOS_DIFFUSION_MAX_FRACTION` from src/interior.rs. -/
def ATMOS_DIFFUSION_MAX_FRACTION : F := 0.5

/-- `O2_CONSUMPTION_KG_PER_SEC` from src/interior.rs. -/
def O2_CONSUMPTION_KG_PER_SEC : F := 0.0003

/-- `CO2_PRODUCTION_KG_PER_SEC` from src/interior.rs. -/
def CO2_PRODUCTION_KG_PER_SEC : F := 0.0003

/-- `LOW_PRESSURE_THRESHOLD_KPA` from src/interior.rs. -/
def LOW_PRESSURE_THRESHOLD_KPA : F := 70.0

/-- `LOW_O2_PARTIAL_PRESSURE_KPA` from src/interior.rs. -/
def LOW_O2_PARTIAL_PRESSURE_KPA : F := 16.0

/-- `HIGH_CO2_PARTIAL_PRESSURE_KPA` from src/interior.rs. -/
def HIGH_CO2_PARTIAL_PRESSURE_KPA : F := 8.0

/-- `SUFFOCATION_DAMAGE_PER_SEC` from src/interior.rs. -/
def SUFFOCATION_DAMAGE_PER_SEC : F := 2.0

/-- `VACUUM_DAMAGE_PER_SEC` from src/interior.rs. -/
def VACUUM_DAMAGE_PER_SEC : F := 8.0

/-- `f64::EPSILON = 2⁻⁵²` exactly. -/
def f64Epsilon : F := ((2 : F) ^ 52)⁻¹

/-- `f32::EPSILON = 2⁻²³` exactly. -/
def f32Epsilon : F := ((2 : F) ^ 23)⁻¹

/-- `TileType` from src/interior.rs. -/
inductive TileType
  | Empty
  | Floor
  | Wall
  | Bed
  | DoorClosed
  | DoorOpen
deriving DecidableEq

/-- `GasType` from src/interior.rs. -/
inductive GasType
  | O2
  | N2
  | CO2
  | Xenon
deriving DecidableEq

/-- `GasType::config_key`. -/
def GasType.config_key : GasType → String
  | GasType.O2 => "O2"
  | GasType.N2 => "N2"
  | GasType.CO2 => "CO2"
  | GasType.Xenon => "Xenon"

/-- `GasConfig` from src/config.rs. -/
structure GasConfig (F : Type) where
  display_name : String
  molar_mass_kg_per_mol : F
  default_mass_kg : F

/-- `AtmosphereConfig` from src/config.rs (`gases` HashMap as a lookup
function). -/
structure AtmosphereConfig (F : Type) where
  tile_size_m : F
  tile_height_m : F
  baseline_temp_c : F
  tick_interval_s : F
  gases : String → Option (GasConfig F)

/-- `GameConfig` from src/config.rs, restricted to the `atmosphere` section
(see the module comment above). -/
structure GameConfig (F : Type) where
  atmosphere : AtmosphereConfig F

/-- `TileAtmosphere` from src/interior.rs. -/
structure TileAtmosphere (F : Type) where
  o2_kg : F
  n2_kg : F
  co2_kg : F
  temp_c : F
deriving DecidableEq

/-- `GasDelta` from src/interior.rs (the per-tile diffusion buffer entry). -/
structure GasDelta (F : Type) where
  o2_kg : F
  n2_kg : F
  co2_kg : F
deriving DecidableEq

/-- The all-zero `GasDelta` (`#[derive(Default)]`). -/
def GasDelta.zero : GasDelta F := ⟨0, 0, 0⟩

/-- `GasTotals` from src/interior.rs. -/
structure GasTotals (F : Type) where
  o2_kg : F
  n2_kg : F
  co2_kg : F
deriving DecidableEq

/-- `TileAtmosphere::vacuum`. -/
def TileAtmosphere.vacuum (temp_c : F) : TileAtmosphere F := ⟨0, 0, 0, temp_c⟩

/-- `TileAtmosphere::with_standard_air`. -/
def TileAtmosphere.with_standard_air (cfg : AtmosphereConfig F) : TileAtmosphere F :=
  ⟨(cfg.gases "O2").map GasConfig.default_mass_kg |>.getD 0,
   (cfg.gases "N2").map GasConfig.default_mass_kg |>.getD 0,
   (cfg.gases "CO2").map GasConfig.default_mass_kg |>.getD 0,
   cfg.baseline_temp_c⟩

/-- `TileAtmosphere::total_mass`. -/
def TileAtmosphere.total_mass (c : TileAtmosphere F) : F :=
  c.o2_kg + c.n2_kg + c.co2_kg

/-- `TileAtmosphere::add_gas`. -/
def TileAtmosphere.add_gas (c : TileAtmosphere F) (gas : GasType) (mass : F) :
    TileAtmosphere F :=
  if mass ≤ 0 then c
  else
    match gas with
    | GasType.O2 => { c with o2_kg := c.o2_kg + mass }
    | GasType.N2 => { c with n2_kg := c.n2_kg + mass }
    | GasType.CO2 => { c with co2_kg := c.co2_kg + mass }
    | GasType.Xenon => c

/-- `TileAtmosphere::clamp_non_negative`. -/
def TileAtmosphere.clamp_non_negative (c : TileAtmosphere F) : TileAtmosphere F :=
  let c1 : TileAtmosphere F :=
    { c with o2_kg := max c.o2_kg 0, n2_kg := max c.n2_kg 0, co2_kg := max c.co2_kg 0 }
  if c1.total_mass < 1e-6 then { c1 with o2_kg := 0, n2_kg := 0, co2_kg := 0 } else c1

/-- `TileAtmosphere::moles_for`. -/
def TileAtmosphere.moles_for (c : TileAtmosphere F) (gas_key : String)
    (cfg : AtmosphereConfig F) : F :=
  let mass : F :=
    if gas_key = "O2" then c.o2_kg
    else if gas_key = "N2" then c.n2_kg
    else if gas_key = "CO2" then c.co2_kg
    else 0
  let molar_mass := ((cfg.gases gas_key).map GasConfig.molar_mass_kg_per_mol).getD 1
  if molar_mass ≤ 0 then 0 else mass / molar_mass

/-- `TileAtmosphere::total_moles`. -/
def TileAtmosphere.total_moles (c : TileAtmosphere F) (cfg : AtmosphereConfig F) : F :=
  c.moles_for "O2" cfg + c.moles_for "N2" cfg + c.moles_for "CO2" cfg

/-- `TileAtmosphere::pressure_kpa`. -/
def TileAtmosphere.pressure_kpa (c : TileAtmosphere F) (cfg : AtmosphereConfig F) : F :=
  let total_moles := c.total_moles cfg
  if total_moles ≤ f64Epsilon then 0
  else
    let temp_k := max (c.temp_c + 273.15) 1
    let volume_m3 := cfg.tile_size_m * cfg.tile_size_m * cfg.tile_height_m
    let pressure_pa := total_moles * IDEAL_GAS_R * temp_k / max volume_m3 1e-6
    pressure_pa / 1000

/-- `TileAtmosphere::partial_pressure_kpa`. -/
def TileAtmosphere.partial_pressure_kpa (c : TileAtmosphere F) (gas : GasType)
    (cfg : AtmosphereConfig F) : F :=
  let moles := c.moles_for gas.config_key cfg
  if moles ≤ f64Epsilon then 0
  else
    let temp_k := max (c.temp_c + 273.15) 1
    let volume_m3 := cfg.tile_size_m * cfg.tile_size_m * cfg.tile_height_m
    let pressure_pa := moles * IDEAL_GAS_R * temp_k / max volume_m3 1e-6
    pressure_pa / 1000

/-- `PowerState` from src/interior.rs. -/
structure PowerState (F : Type) where
  net_kw : F
  total_production_kw : F
  total_consumption_kw : F
deriving DecidableEq

/-- `DeviceType` from src/interior.rs. -/
inductive DeviceType
  | Tank
  | ReactorUranium
  | Dispenser
  | NavStation
  | Transponder
  | ShipComputer
  | BedDevice
  | Toilet
  | FoodGenerator
  | RCSThruster
  | Light
  | DoorDevice
  | PowerLine
  | GasLine
deriving DecidableEq

/-- `TankData` from src/interior.rs. -/
structure TankData (F : Type) where
  capacity_kg : F
  o2_kg : F
  n2_kg : F
  co2_kg : F
  xenon_kg : F
deriving DecidableEq

/-- `ReactorData` from src/interior.rs. -/
structure ReactorData (F : Type) where
  fuel_kg : F
  max_fuel_kg : F
  fuel_burn_rate_kg_per_s : F
  power_output_kw : F
  online : Bool
deriving DecidableEq

/-- `DispenserData` from src/interior.rs (`connected_tank_id` is a `u64`
device id). -/
structure DispenserData (F : Type) where
  active : Bool
  rate_kg_per_s : F
  gas_type : GasType
  connected_tank_id : Option ℕ
deriving DecidableEq

/-- `NavStationData` from src/interior.rs. -/
structure NavStationData where
  online : Bool
deriving DecidableEq

/-- `TransponderData` from src/interior.rs. -/
structure TransponderData where
  callsign : String
  online : Bool
  dm_code : ℕ
deriving DecidableEq

/-- `ShipComputerData` from src/interior.rs. -/
structure ShipComputerData where
  online : Bool
deriving DecidableEq

/-- `FoodGeneratorData` from src/interior.rs. -/
structure FoodGeneratorData (F : Type) where
  food_units : F
  max_food_units : F
  online : Bool
deriving DecidableEq

/-- `RCSThrusterData` from src/interior.rs. -/
structure RCSThrusterData where
  uses_any_gas : Bool
  preferred_gas : GasType
  online : Bool
deriving DecidableEq

/-- `LightData` from src/interior.rs. -/
structure LightData (F : Type) where
  intensity : F
  online : Bool
deriving DecidableEq

/-- `DoorDeviceData` from src/interior.rs (`is_open` models the field named
`open`, a Lean keyword). -/
structure DoorDeviceData where
  is_open : Bool
deriving DecidableEq

/-- `DeviceData` from src/interior.rs (`BedDevice`, `Toilet`, `PowerLine` and
`GasLine` carry empty payload structs in the source). -/
inductive DeviceData (F : Type)
  | Tank (data : TankData F)
  | Reactor (data : ReactorData F)
  | Dispenser (data : DispenserData F)
  | NavStation (data : NavStationData)
  | Transponder (data : TransponderData)
  | ShipComputer (data : ShipComputerData)
  | BedDevice
  | Toilet
  | FoodGenerator (data : FoodGeneratorData F)
  | RCSThruster (data : RCSThrusterData)
  | Light (data : LightData F)
  | DoorDevice (data : DoorDeviceData)
  | PowerLine
  | GasLine
deriving DecidableEq

/-- `Device` from src/interior.rs (`u64` id and `u32` footprint as `ℕ`). -/
structure Device (F : Type) where
  id : ℕ
  device_type : DeviceType
  x : ℕ
  y : ℕ
  w : ℕ
  h : ℕ
  power_kw : F
  online : Bool
  data : DeviceData F
deriving DecidableEq

/-- `PawnStatus` from src/interior.rs. -/
inductive PawnStatus
  | Awake
  | Sleeping
deriving DecidableEq

/-- `NeedsState` from src/interior.rs. -/
structure NeedsState (F : Type) where
  hunger : F
  thirst : F
  rest : F
deriving DecidableEq

/-- `NeedsState::clamp`: clamps all three needs into `[0, 1]`. -/
def NeedsState.clamp01 (n : NeedsState F) : NeedsState F :=
  ⟨clamp n.hunger 0 1, clamp n.thirst 0 1, clamp n.rest 0 1⟩

/-- `BodyPart` from src/interior.rs. -/
structure BodyPart (F : Type) where
  name : String
  hp : F
  max_hp : F
  vital : Bool
deriving DecidableEq

/-- `HealthState` from src/interior.rs. -/
structure HealthState (F : Type) where
  body_parts : List (BodyPart F)
deriving DecidableEq

/-- `Pawn` from src/interior.rs. -/
structure Pawn (F : Type) where
  id : ℕ
  name : String
  x : ℕ
  y : ℕ
  status : PawnStatus
  needs : NeedsState F
  health : HealthState F
  suffocation_time : F
deriving DecidableEq

/-- `ShipInterior` from src/interior.rs: the `tiles` and `tile_atmos` vectors
of length `width * height` are modelled as functions of the flat index
`Self::idx(x, y, width) = y * width + x`. -/
structure ShipInterior (F : Type) where
  width : ℕ
  height : ℕ
  tiles : ℕ → TileType
  tile_atmos : ℕ → TileAtmosphere F
  power : PowerState F
  devices : List (Device F)
  hull_shape : HullShape F

/-- `ShipInterior::idx`. -/
def tile_idx (x y width : ℕ) : ℕ := y * width + x

/-- Point update of a flat grid function (models writing one vector slot). -/
def upd {α : Type} (f : ℕ → α) (i : ℕ) (v : α) : ℕ → α :=
  fun j => if j = i then v else f j

/-- `ShipInterior::in_bounds` (takes `i32` coordinates). -/
def ShipInterior.in_bounds (s : ShipInterior F) (x y : ℤ) : Prop :=
  0 ≤ x ∧ 0 ≤ y ∧ x < (s.width : ℤ) ∧ y < (s.height : ℤ)

instance (s : ShipInterior F) (x y : ℤ) : Decidable (s.in_bounds x y) := by
  unfold ShipInterior.in_bounds; infer_instance

/-- `ShipInterior::tile`: `Some` only for in-range `u32` coordinates. -/
def ShipInterior.tile (s : ShipInterior F) (x y : ℕ) : Option TileType :=
  if x < s.width ∧ y < s.height then some (s.tiles (tile_idx x y s.width)) else none

/-- `ShipInterior::tile_type`: out-of-range defaults to `Empty`. -/
def ShipInterior.tile_type (s : ShipInterior F) (x y : ℕ) : TileType :=
  (s.tile x y).getD TileType.Empty

/-- `ShipInterior::tile_supports_atmos`. -/
def tile_supports_atmos : TileType → Bool
  | TileType.Floor | TileType.Bed | TileType.DoorOpen | TileType.DoorClosed => true
  | _ => false

/-- `ShipInterior::tile_atmos_cell`. -/
def ShipInterior.tile_atmos_cell (s : ShipInterior F) (x y : ℕ) :
    Option (TileAtmosphere F) :=
  if ¬ s.in_bounds (x : ℤ) (y : ℤ) then none
  else if ¬ tile_supports_atmos (s.tile_type x y) then none
  else some (s.tile_atmos (tile_idx x y s.width))

/-- `ShipInterior::is_passable`. -/
def ShipInterior.is_passable (s : ShipInterior F) (x y : ℤ) : Prop :=
  s.in_bounds x y ∧
    (s.tile_type x.toNat y.toNat = TileType.Floor ∨
     s.tile_type x.toNat y.toNat = TileType.Bed ∨
     s.tile_type x.toNat y.toNat = TileType.DoorOpen)

instance (s : ShipInterior F) (x y : ℤ) : Decidable (s.is_passable x y) := by
  unfold ShipInterior.is_passable; infer_instance

/-- `ShipInterior::set_tile_type`. -/
def ShipInterior.set_tile_type (s : ShipInterior F) (x y : ℕ) (tt : TileType)
    (atmos_cfg : AtmosphereConfig F) : ShipInterior F :=
  if x < s.width ∧ y < s.height then
    let i := tile_idx x y s.width
    let s1 := { s with tiles := upd s.tiles i tt }
    if ¬ tile_supports_atmos tt then
      { s1 with tile_atmos := upd s1.tile_atmos i (TileAtmosphere.vacuum atmos_cfg.baseline_temp_c) }
    else if (s1.tile_atmos i).total_mass ≤ f32Epsilon then
      { s1 with tile_atmos := upd s1.tile_atmos i (TileAtmosphere.with_standard_air atmos_cfg) }
    else s1
  else s

/-- `ShipInterior::total_atmos` (sums the `width * height` vector slots). -/
def ShipInterior.total_atmos (s : ShipInterior F) : GasTotals F :=
  ⟨((List.range (s.width * s.height)).map (fun i => (s.tile_atmos i).o2_kg)).sum,
   ((List.range (s.width * s.height)).map (fun i => (s.tile_atmos i).n2_kg)).sum,
   ((List.range (s.width * s.height)).map (fun i => (s.tile_atmos i).co2_kg)).sum⟩

/-- `ShipInterior::pick_device_output_tile`. -/
def ShipInterior.pick_device_output_tile (s : ShipInterior F)
    (rect : ℕ × ℕ × ℕ × ℕ) : Option (ℕ × ℕ) :=
  let x := rect.1
  let y := rect.2.1
  let w := rect.2.2.1
  let h := rect.2.2.2
  let front_y := y + h
  let front :=
    if front_y < s.height then
      ((List.range' x (min (x + w) s.width - x)).find? fun tx =>
        tile_supports_atmos (s.tile_type tx front_y)).map (fun tx => (tx, front_y))
    else none
  match front with
  | some p => some p
  | none =>
    (List.range' y (min (y + h) s.height - y)).findSome? fun ty =>
      ((List.range' x (min (x + w) s.width - x)).find? fun tx =>
        tile_supports_atmos (s.tile_type tx ty)).map (fun tx => (tx, ty))

/-- `ShipInterior::inject_gas_into_tile`. -/
def ShipInterior.inject_gas_into_tile (s : ShipInterior F) (x y : ℕ)
    (gas : GasType) (mass : F) : ShipInterior F :=
  if mass ≤ 0 then s
  else if ¬ s.in_bounds (x : ℤ) (y : ℤ) then s
  else if ¬ tile_supports_atmos (s.tile_type x y) then s
  else
    let i := tile_idx x y s.width
    { s with tile_atmos := upd s.tile_atmos i ((s.tile_atmos i).add_gas gas mass) }

/-- The body of the per-device loop in `ShipInterior::step` (src/interior.rs
lines 952–1026) for the device at index `i`: power accounting, then the
reactor / dispenser behaviour, then the deferred gas injection.  The
`before.iter_mut().chain(after.iter_mut())` tank search is the first device
with the matching id at an index other than `i`, in ascending index order. -/
def ShipInterior.step_device (s : ShipInterior F) (dt_f32 : F) (i : ℕ) :
    ShipInterior F :=
  match s.devices.get? i with
  | none => s
  | some device =>
    let power1 : PowerState F :=
      if device.online ∧ 0 < device.power_kw then
        { s.power with total_consumption_kw := s.power.total_consumption_kw + device.power_kw }
      else if device.online ∧ device.power_kw < 0 then
        { s.power with total_production_kw := s.power.total_production_kw + -device.power_kw }
      else s.power
    match device.data with
    | DeviceData.Reactor rdata =>
      if rdata.online ∧ 0 < rdata.fuel_kg then
        let power2 :=
          { power1 with total_production_kw := power1.total_production_kw + rdata.power_output_kw }
        let burn := min (rdata.fuel_burn_rate_kg_per_s * dt_f32) rdata.fuel_kg
        let fuel1 := rdata.fuel_kg - burn
        let rdata1 : ReactorData F :=
          if fuel1 ≤ 0 then { rdata with fuel_kg := 0, online := false }
          else { rdata with fuel_kg := fuel1 }
        { s with power := power2,
                 devices := s.devices.set i { device with data := DeviceData.Reactor rdata1 } }
      else { s with power := power1 }
    | DeviceData.Dispenser ddata =>
      if ¬ (device.online ∧ ddata.active) then { s with power := power1 }
      else
        let transfer := ddata.rate_kg_per_s * dt_f32
        if transfer ≤ 0 then { s with power := power1 }
        else
          match ddata.connected_tank_id with
          | none => { s with power := power1 }
          | some tank_id =>
            match (List.range s.devices.length).find? fun j =>
                j ≠ i ∧ ((s.devices.get? j).map Device.id) = some tank_id with
            | none => { s with power := power1 }
            | some j =>
              match s.devices.get? j with
              | none => { s with power := power1 }
              | some tank_device =>
                match tank_device.data with
                | DeviceData.Tank tank =>
                  let moved_pair : TankData F × F :=
                    match ddata.gas_type with
                    | GasType.O2 =>
                      let m := min tank.o2_kg transfer
                      ({ tank with o2_kg := tank.o2_kg - m }, m)
                    | GasType.N2 =>
                      let m := min tank.n2_kg transfer
                      ({ tank with n2_kg := tank.n2_kg - m }, m)
                    | GasType.CO2 =>
                      let m := min tank.co2_kg transfer
                      ({ tank with co2_kg := tank.co2_kg - m }, m)
                    | GasType.Xenon =>
                      let m := min tank.xenon_kg transfer
                      ({ tank with xenon_kg := tank.xenon_kg - m }, 0)
                  let s1 : ShipInterior F :=
                    { s with power := power1,
                             devices := s.devices.set j
                               { tank_device with data := DeviceData.Tank moved_pair.1 } }
                  if 0 < moved_pair.2 then
                    match s1.pick_device_output_tile (device.x, device.y, device.w, device.h) with
                    | some p => s1.inject_gas_into_tile p.1 p.2 ddata.gas_type moved_pair.2
                    | none => s1
                  else s1
                | _ => { s with power := power1 }
    | _ => { s with power := power1 }

/-- `ShipInterior::step` (src/interior.rs lines 947–1029): reset the power
accumulators, run the per-device loop, then set `net_kw`. -/
def ShipInterior.step (s : ShipInterior F) (dt : F) : ShipInterior F :=
  let dt_f32 := dt
  let s0 : ShipInterior F :=
    { s with power := { s.power with total_production_kw := 0, total_consumption_kw := 0 } }
  let s1 := (List.range s0.devices.length).foldl (fun acc i => acc.step_device dt_f32 i) s0
  { s1 with power :=
      { s1.power with net_kw := s1.power.total_production_kw - s1.power.total_consumption_kw } }

/-- The fixed half-neighborhood `NEIGHBORS` of `ShipInterior::step_atmosphere`:
right, down, down-right, down-left. -/
def NEIGHBORS : List (ℤ × ℤ) := [(1, 0), (0, 1), (1, 1), (-1, 1)]

/-- The sweep entries contributed by one source tile `(x, y)` in
`ShipInterior::step_atmosphere`: when the source supports atmosphere, each
direction of `NEIGHBORS` whose target is in bounds and supports atmosphere
yields one `(idx_a, idx_b)` pair. -/
def ShipInterior.tile_pairs (s : ShipInterior F) (x y : ℕ) : List (ℕ × ℕ) :=
  if tile_supports_atmos (s.tiles (tile_idx x y s.width)) then
    NEIGHBORS.filterMap fun d =>
      let nx : ℤ := (x : ℤ) + d.1
      let ny : ℤ := (y : ℤ) + d.2
      if 0 ≤ nx ∧ 0 ≤ ny ∧ nx < (s.width : ℤ) ∧ ny < (s.height : ℤ) then
        let j := tile_idx nx.toNat ny.toNat s.width
        if tile_supports_atmos (s.tiles j) then
          some (tile_idx x y s.width, j)
        else none
      else none
  else []

/-- The ordered list of `(idx_a, idx_b)` pairs processed by the sweep in
`ShipInterior::step_atmosphere`: the per-tile entries for each grid tile
`(x, y)` in row-major order. -/
def ShipInterior.diffusion_pairs (s : ShipInterior F) : List (ℕ × ℕ) :=
  (List.range s.height).flatMap fun y =>
    (List.range s.width).flatMap fun x => s.tile_pairs x y

/-- One sweep entry: add `(cell_b - cell_a) * factor` of each gas to
`deltas[idx_a]` and subtract it from `deltas[idx_b]` (two sequential slot
writes, exactly as the source). -/
def diffusion_pair_update (atm : ℕ → TileAtmosphere F) (factor : F)
    (deltas : ℕ → GasDelta F) (p : ℕ × ℕ) : ℕ → GasDelta F :=
  let cell_a := atm p.1
  let cell_b := atm p.2
  let delta_o2 := (cell_b.o2_kg - cell_a.o2_kg) * factor
  let delta_n2 := (cell_b.n2_kg - cell_a.n2_kg) * factor
  let delta_co2 := (cell_b.co2_kg - cell_a.co2_kg) * factor
  let d1 := upd deltas p.1
    ⟨(deltas p.1).o2_kg + delta_o2, (deltas p.1).n2_kg + delta_n2,
     (deltas p.1).co2_kg + delta_co2⟩
  upd d1 p.2
    ⟨(d1 p.2).o2_kg - delta_o2, (d1 p.2).n2_kg - delta_n2, (d1 p.2).co2_kg - delta_co2⟩

/-- The delta buffer after the full sweep of `ShipInterior::step_atmosphere`. -/
def ShipInterior.diffusion_deltas (s : ShipInterior F) (factor : F) :
    ℕ → GasDelta F :=
  s.diffusion_pairs.foldl (diffusion_pair_update s.tile_atmos factor) (fun _ => GasDelta.zero)

/-- Adding a `GasDelta` to a cell (the `cell.o2_kg += delta.o2_kg; ...` part
of the final loop of `step_atmosphere`). -/
def TileAtmosphere.add_delta (c : TileAtmosphere F) (d : GasDelta F) : TileAtmosphere F :=
  { c with o2_kg := c.o2_kg + d.o2_kg, n2_kg := c.n2_kg + d.n2_kg,
           co2_kg := c.co2_kg + d.co2_kg }

/-- `ShipInterior::step_atmosphere` without the final `clamp_non_negative`
(the state right after the deltas are applied to every vector slot). -/
def ShipInterior.step_atmosphere_raw (s : ShipInterior F) (dt : F) : ShipInterior F :=
  if dt ≤ 0 then s
  else
    let factor := min (ATMOS_DIFFUSION_COEFF * dt) ATMOS_DIFFUSION_MAX_FRACTION
    if factor ≤ 0 then s
    else
      let deltas := s.diffusion_deltas factor
      { s with tile_atmos := fun i =>
          if i < s.width * s.height then (s.tile_atmos i).add_delta (deltas i)
          else s.tile_atmos i }

/-- `ShipInterior::step_atmosphere` (src/interior.rs lines 1031–1079):
Jacobi sweep over `diffusion_pairs` into a separate delta buffer, then apply
the deltas and `clamp_non_negative` to every vector slot. -/
def ShipInterior.step_atmosphere (s : ShipInterior F) (dt : F) : ShipInterior F :=
  if dt ≤ 0 then s
  else
    let factor := min (ATMOS_DIFFUSION_COEFF * dt) ATMOS_DIFFUSION_MAX_FRACTION
    if factor ≤ 0 then s
    else
      let deltas := s.diffusion_deltas factor
      { s with tile_atmos := fun i =>
          if i < s.width * s.height then
            ((s.tile_atmos i).add_delta (deltas i)).clamp_non_negative
          else s.tile_atmos i }

/-- `InteriorCommand` from src/interior.rs. -/
inductive InteriorCommand
  | MovePawn (dx dy : ℤ)
  | ToggleSleep
  | InteractAt (x y : ℕ)
deriving DecidableEq

/-- `InteriorWorld` from src/interior.rs (`VecDeque` as a list, front first). -/
structure InteriorWorld (F : Type) where
  ship : ShipInterior F
  pawn : Pawn F
  command_queue : List InteriorCommand
  atmos_accumulator : F

/-- `device_contains` from src/interior.rs. -/
def device_contains (device : Device F) (x y : ℕ) : Prop :=
  device.x ≤ x ∧ device.y ≤ y ∧ x < device.x + device.w ∧ y < device.y + device.h

instance (device : Device F) (x y : ℕ) : Decidable (device_contains device x y) := by
  unfold device_contains; infer_instance

/-- `InteriorWorld::try_move_pawn`. -/
def InteriorWorld.try_move_pawn (iw : InteriorWorld F) (dx dy : ℤ) : InteriorWorld F :=
  let target_x : ℤ := (iw.pawn.x : ℤ) + dx
  let target_y : ℤ := (iw.pawn.y : ℤ) + dy
  if iw.ship.is_passable target_x target_y then
    { iw with pawn := { iw.pawn with x := target_x.toNat, y := target_y.toNat } }
  else iw

/-- `InteriorWorld::toggle_sleep`. -/
def InteriorWorld.toggle_sleep (iw : InteriorWorld F) : InteriorWorld F :=
  if iw.ship.tile_type iw.pawn.x iw.pawn.y ≠ TileType.Bed then iw
  else
    { iw with pawn := { iw.pawn with status :=
        match iw.pawn.status with
        | PawnStatus.Awake => PawnStatus.Sleeping
        | PawnStatus.Sleeping => PawnStatus.Awake } }

/-- `InteriorWorld::interact_at` (src/interior.rs lines 1168–1228): no-op for
out-of-range coordinates; otherwise the first device whose footprint contains
`(x, y)` is interacted with (`break` after it) and a door toggle updates its
footprint tiles afterwards. -/
def InteriorWorld.interact_at (iw : InteriorWorld F) (x y : ℕ)
    (atmos_cfg : AtmosphereConfig F) : InteriorWorld F :=
  if iw.ship.width ≤ x ∨ iw.ship.height ≤ y then iw
  else
    match iw.ship.devices.findIdx? (fun d => decide (device_contains d x y)) with
    | none => iw
    | some i =>
      match iw.ship.devices.get? i with
      | none => iw
      | some device =>
        match device.data with
        | DeviceData.BedDevice =>
          if iw.pawn.x = x ∧ iw.pawn.y = y then iw.toggle_sleep else iw
        | DeviceData.DoorDevice ddata =>
          let now_open := ¬ ddata.is_open
          let new_device :=
            { device with data := DeviceData.DoorDevice ⟨now_open⟩ }
          let tt := if now_open then TileType.DoorOpen else TileType.DoorClosed
          let iw1 :=
            { iw with ship := { iw.ship with devices := iw.ship.devices.set i new_device } }
          let footprint :=
            (List.range' device.y device.h).flatMap fun ty =>
              (List.range' device.x device.w).map fun tx => (tx, ty)
          { iw1 with ship :=
              footprint.foldl (fun sh p => sh.set_tile_type p.1 p.2 tt atmos_cfg) iw1.ship }
        | DeviceData.Light ldata =>
          let new_online := ¬ ldata.online
          let new_device : Device F :=
            { device with
                online := new_online,
                data := DeviceData.Light { ldata with online := new_online } }
          { iw with ship := { iw.ship with devices := iw.ship.devices.set i new_device } }
        | DeviceData.Reactor rdata =>
          if 0 < rdata.fuel_kg then
            let new_online := ¬ rdata.online
            let new_device : Device F :=
              { device with
                  online := new_online,
                  data := DeviceData.Reactor { rdata with online := new_online } }
            { iw with ship := { iw.ship with devices := iw.ship.devices.set i new_device } }
          else iw
        | DeviceData.Dispenser ddata =>
          let new_device : Device F :=
            { device with
              data := DeviceData.Dispenser { ddata with active := ¬ ddata.active } }
          { iw with ship := { iw.ship with devices := iw.ship.devices.set i new_device } }
        | DeviceData.FoodGenerator fdata =>
          if 0 < fdata.food_units then
            let consumed := min fdata.food_units 1
            let pawn1 := { iw.pawn with needs :=
              ({ iw.pawn.needs with hunger := max (iw.pawn.needs.hunger - 0.2) 0 }).clamp01 }
            let new_fdata : FoodGeneratorData F :=
              { fdata with food_units := fdata.food_units - consumed }
            let new_device : Device F :=
              { device with data := DeviceData.FoodGenerator new_fdata }
            { iw with
                pawn := pawn1,
                ship := { iw.ship with devices := iw.ship.devices.set i new_device } }
          else iw
        | _ => iw

/-- One step of `InteriorWorld::process_commands` (the match in its loop). -/
def InteriorWorld.apply_command (iw : InteriorWorld F) (command : InteriorCommand)
    (config : GameConfig F) : InteriorWorld F :=
  match command with
  | InteriorCommand.MovePawn dx dy => iw.try_move_pawn dx dy
  | InteriorCommand.ToggleSleep => iw.toggle_sleep
  | InteriorCommand.InteractAt x y => iw.interact_at x y config.atmosphere

/-- `InteriorWorld::process_commands`: drain the queue front-first. -/
def InteriorWorld.process_commands (iw : InteriorWorld F) (config : GameConfig F) :
    InteriorWorld F :=
  iw.command_queue.foldl (fun w c => w.apply_command c config)
    { iw with command_queue := [] }

/-- `InteriorWorld::update_pawn_needs`. -/
def InteriorWorld.update_pawn_needs (iw : InteriorWorld F) (dt : F) : InteriorWorld F :=
  let hunger_rate : F := 1 / (8 * 3600)
  let thirst_rate : F := 1 / (4 * 3600)
  let rest_fatigue_rate : F := 1 / (16 * 3600)
  let rest_recover_rate : F := 1 / (6 * 3600)
  let dt_f32 := dt
  let needs1 : NeedsState F :=
    match iw.pawn.status with
    | PawnStatus.Awake =>
      { hunger := iw.pawn.needs.hunger + hunger_rate * dt_f32,
        thirst := iw.pawn.needs.thirst + thirst_rate * dt_f32,
        rest := iw.pawn.needs.rest + rest_fatigue_rate * dt_f32 }
    | PawnStatus.Sleeping =>
      { iw.pawn.needs with rest := iw.pawn.needs.rest - rest_recover_rate * dt_f32 }
  { iw with pawn := { iw.pawn with needs := needs1.clamp01 } }

/-- `InteriorWorld::apply_health_damage`. -/
def InteriorWorld.apply_health_damage (iw : InteriorWorld F) (amount : F) :
    InteriorWorld F :=
  if amount ≤ 0 then iw
  else
    { iw with pawn := { iw.pawn with health :=
        ⟨iw.pawn.health.body_parts.map fun part =>
          { part with hp := max (part.hp - amount) 0 }⟩ } }

/-- `InteriorWorld::apply_pawn_atmos_effects` (src/interior.rs lines
1249–1291). -/
def InteriorWorld.apply_pawn_atmos_effects (iw : InteriorWorld F) (dt : F)
    (atmos_cfg : AtmosphereConfig F) : InteriorWorld F :=
  match iw.ship.tile_atmos_cell iw.pawn.x iw.pawn.y with
  | some cell =>
    let required_o2 := O2_CONSUMPTION_KG_PER_SEC * dt
    let available_o2 := cell.o2_kg
    let consumed := min available_o2 required_o2
    let production_scale := if 0 < required_o2 then consumed / required_o2 else 0
    let cell1 : TileAtmosphere F :=
      { cell with
          o2_kg := cell.o2_kg - consumed,
          co2_kg := cell.co2_kg + CO2_PRODUCTION_KG_PER_SEC * dt * production_scale }
    let suffocating := consumed < required_o2 * 0.9
    let new_atmos := upd iw.ship.tile_atmos (tile_idx iw.pawn.x iw.pawn.y iw.ship.width) cell1
    let iw1 : InteriorWorld F :=
      { iw with ship := { iw.ship with tile_atmos := new_atmos } }
    let pressure := cell1.pressure_kpa atmos_cfg
    let o2_pp := cell1.partial_pressure_kpa GasType.O2 atmos_cfg
    let co2_pp := cell1.partial_pressure_kpa GasType.CO2 atmos_cfg
    let damage0 : F := 0
    let damage1 :=
      if pressure < LOW_PRESSURE_THRESHOLD_KPA then
        damage0 + (LOW_PRESSURE_THRESHOLD_KPA - pressure) * 0.005 * dt
      else damage0
    let damage2 :=
      if o2_pp < LOW_O2_PARTIAL_PRESSURE_KPA then
        damage1 + (LOW_O2_PARTIAL_PRESSURE_KPA - o2_pp) * 0.05 * dt
      else damage1
    let damage3 :=
      if HIGH_CO2_PARTIAL_PRESSURE_KPA < co2_pp then
        damage2 + (co2_pp - HIGH_CO2_PARTIAL_PRESSURE_KPA) * 0.05 * dt
      else damage2
    let iw2 := if 0 < damage3 then iw1.apply_health_damage damage3 else iw1
    if suffocating then
      let iw3 := { iw2 with pawn :=
        { iw2.pawn with suffocation_time := iw2.pawn.suffocation_time + dt } }
      iw3.apply_health_damage (SUFFOCATION_DAMAGE_PER_SEC * dt)
    else { iw2 with pawn := { iw2.pawn with suffocation_time := 0 } }
  | none =>
    let iw1 := iw.apply_health_damage (VACUUM_DAMAGE_PER_SEC * dt)
    let iw2 := { iw1 with pawn :=
      { iw1.pawn with suffocation_time := iw1.pawn.suffocation_time + dt } }
    iw2.apply_health_damage (SUFFOCATION_DAMAGE_PER_SEC * dt)

/-- `f64Epsilon` is positive. -/
theorem f64Epsilon_pos : (0 : F) < f64Epsilon := by
  rw [f64Epsilon]
  positivity

/-- The atmosphere `while` loop of `InteriorWorld::step` (src/interior.rs
lines 1124–1129): while the accumulator holds at least one tick, run a
diffusion step and the pawn breathing/health step and subtract the tick
(the two inner steps never touch the accumulator, so the subtraction reads
the incoming value directly). -/
def InteriorWorld.atmos_steps [FloorRing F] (config : GameConfig F) (tick : F)
    (htick : f64Epsilon < tick) (iw : InteriorWorld F) : InteriorWorld F :=
  if h : tick ≤ iw.atmos_accumulator then
    let dt_f32 := tick
    let iw1 : InteriorWorld F := { iw with ship := iw.ship.step_atmosphere dt_f32 }
    let iw2 := iw1.apply_pawn_atmos_effects dt_f32 config.atmosphere
    InteriorWorld.atmos_steps config tick htick
      { iw2 with atmos_accumulator := iw.atmos_accumulator - tick }
  else iw
termination_by (⌊iw.atmos_accumulator / tick⌋).toNat
decreasing_by
  have htp : (0 : F) < tick := lt_trans f64Epsilon_pos htick
  have h1 : (iw.atmos_accumulator - tick) / tick = iw.atmos_accumulator / tick - 1 := by
    field_simp
  have h2 : (1 : ℤ) ≤ ⌊iw.atmos_accumulator / tick⌋ := by
    rw [Int.le_floor]
    push_cast
    rw [le_div_iff htp]
    linarith
  simp only [h1, Int.floor_sub_one]
  omega

/-- `InteriorWorld::step` (src/interior.rs lines 1115–1130): process queued
commands, step the devices, update pawn needs, then run the fixed-timestep
atmosphere loop off the accumulator (skipped entirely when
`tick_interval_s ≤ f64::EPSILON`). -/
def InteriorWorld.step (iw : InteriorWorld F) (dt : F) (config : GameConfig F) :
    InteriorWorld F :=
  let iw1 := iw.process_commands config
  let iw2 : InteriorWorld F := { iw1 with ship := iw1.ship.step dt }
  let iw3 := iw2.update_pawn_needs dt
  let iw4 : InteriorWorld F :=
    { iw3 with atmos_accumulator := iw3.atmos_accumulator + dt }
  let tick := config.atmosphere.tick_interval_s
  if h : tick ≤ f64Epsilon then iw4
  else iw4.atmos_steps config tick (not_le.mp h)

/-! ## World orchestrator (src/lib.rs) -/

/-- `PLANET_RADIUS_M` from src/lib.rs. -/
def PLANET_RADIUS_M : F := 6371000

/-- `GRAVITY_WELL_RADIUS_M` from src/lib.rs. -/
def GRAVITY_WELL_RADIUS_M : F := 1500000000

/-- `GRAVITY_WELL_ALTITUDE_M` from src/lib.rs. -/
def GRAVITY_WELL_ALTITUDE_M : F := GRAVITY_WELL_RADIUS_M - PLANET_RADIUS_M

/-- `DESPAWN_RADIUS_M` from src/lib.rs. -/
def DESPAWN_RADIUS_M : F := PLANET_RADIUS_M + 3 * GRAVITY_WELL_ALTITUDE_M

/-- `World` from src/lib.rs. -/
structure World (F : Type) where
  mu : F
  sim_time : F
  bodies : List (BodyState F)
  planet_radius : F
  interior : InteriorWorld F
  config : GameConfig F
  next_id : ℕ

/-- `World::add_body` (src/lib.rs lines 322–336): assign a fresh id when the
body comes in with id 0 (the `u64` counter increments mod `2^64`), derive the
radius from the hull when present, prime position/velocity from the orbit at
the current simulation time (`none` = the `orbit_to_cartesian` assertion
panics), and push the body.  Returns the world and the returned id. -/
def World.add_body (ops : TrigOps F) (w : World F) (body : BodyState F) :
    Option (World F × ℕ) :=
  let body1 := if body.id = 0 then { body with id := w.next_id } else body
  let next1 := if body.id = 0 then (w.next_id + 1) % 2 ^ 64 else w.next_id
  let body2 :=
    match body1.hull_shape with
    | some shape => { body1 with radius := shape.bounding_radius ops }
    | none => body1
  match orbit_to_cartesian ops body2.orbit w.mu w.sim_time with
  | none => none
  | some pv =>
    let body3 : BodyState F := { body2 with position := pv.1, velocity := pv.2 }
    let w1 : World F := { w with bodies := w.bodies ++ [body3], next_id := next1 }
    some (w1, body2.id)

/-- `World::cull_despawned_bodies`. -/
def World.cull_despawned_bodies (ops : TrigOps F) (w : World F) : World F :=
  { w with bodies := w.bodies.filter fun body =>
      Vec2.length ops body.position ≤ DESPAWN_RADIUS_M }

/-- `World::step` (src/lib.rs lines 342–351): advance the simulation time,
re-propagate every body from its orbit (`none` if any propagation panics),
cull despawned bodies, then step the interior. -/
def World.step (ops : TrigOps F) (w : World F) (dt : F) : Option (World F) :=
  let sim_time1 := w.sim_time + dt
  match w.bodies.mapM (fun b =>
      (orbit_to_cartesian ops b.orbit w.mu sim_time1).map fun pv =>
        { b with position := pv.1, velocity := pv.2 }) with
  | none => none
  | some bodies1 =>
    let w1 : World F := { w with sim_time := sim_time1, bodies := bodies1 }
    let w2 := w1.cull_despawned_bodies ops
    some { w2 with interior := w2.interior.step dt w2.config }

/-- Phases of one `World::step` tick, used to state ordering claims: the
labels are emitted by the instrumented step functions below in the order the
corresponding source statements execute. -/
inductive StepPhase
  | AdvanceBodies
  | CullBodies
  | Command (c : InteriorCommand)
  | DeviceStep
  | PawnNeeds
  | AtmosphereDiffusion
  | PawnBreathing
deriving DecidableEq

/-- Instrumented `InteriorWorld.atmos_steps`, also returning the emitted
phase labels. -/
def InteriorWorld.atmos_steps_trace [FloorRing F] (config : GameConfig F) (tick : F)
    (htick : f64Epsilon < tick) (iw : InteriorWorld F) :
    InteriorWorld F × List StepPhase :=
  if h : tick ≤ iw.atmos_accumulator then
    let dt_f32 := tick
    let iw1 : InteriorWorld F := { iw with ship := iw.ship.step_atmosphere dt_f32 }
    let iw2 := iw1.apply_pawn_atmos_effects dt_f32 config.atmosphere
    let rest := InteriorWorld.atmos_steps_trace config tick htick
      { iw2 with atmos_accumulator := iw.atmos_accumulator - tick }
    (rest.1, StepPhase.AtmosphereDiffusion :: StepPhase.PawnBreathing :: rest.2)
  else (iw, [])
termination_by (⌊iw.atmos_accumulator / tick⌋).toNat
decreasing_by
  have htp : (0 : F) < tick := lt_trans f64Epsilon_pos htick
  have h1 : (iw.atmos_accumulator - tick) / tick = iw.atmos_accumulator / tick - 1 := by
    field_simp
  have h2 : (1 : ℤ) ≤ ⌊iw.atmos_accumulator / tick⌋ := by
    rw [Int.le_floor]
    push_cast
    rw [le_div_iff htp]
    linarith
  simp only [h1, Int.floor_sub_one]
  omega

/-- Instrumented `InteriorWorld.step`: the command labels (one per queued
command, in queue order) precede the device, needs and atmosphere labels. -/
def InteriorWorld.step_trace (iw : InteriorWorld F) (dt : F) (config : GameConfig F) :
    InteriorWorld F × List StepPhase :=
  let ctrace := iw.command_queue.map StepPhase.Command
  let iw1 := iw.process_commands config
  let iw2 : InteriorWorld F := { iw1 with ship := iw1.ship.step dt }
  let iw3 := iw2.update_pawn_needs dt
  let iw4 : InteriorWorld F :=
    { iw3 with atmos_accumulator := iw3.atmos_accumulator + dt }
  let tick := config.atmosphere.tick_interval_s
  if h : tick ≤ f64Epsilon then
    (iw4, ctrace ++ [StepPhase.DeviceStep, StepPhase.PawnNeeds])
  else
    let rest := iw4.atmos_steps_trace config tick (not_le.mp h)
    (rest.1, ctrace ++ [StepPhase.DeviceStep, StepPhase.PawnNeeds] ++ rest.2)

/-- Instrumented `World.step`: emits `AdvanceBodies`, then `CullBodies`, then
the interior phases.  When a body propagation panics the tick dies during the
advance phase. -/
def World.step_trace (ops : TrigOps F) (w : World F) (dt : F) :
    Option (World F) × List StepPhase :=
  let sim_time1 := w.sim_time + dt
  match w.bodies.mapM (fun b =>
      (orbit_to_cartesian ops b.orbit w.mu sim_time1).map fun pv =>
        { b with position := pv.1, velocity := pv.2 }) with
  | none => (none, [StepPhase.AdvanceBodies])
  | some bodies1 =>
    let w1 : World F := { w with sim_time := sim_time1, bodies := bodies1 }
    let w2 := w1.cull_despawned_bodies ops
    let rest := w2.interior.step_trace dt w2.config
    (some { w2 with interior := rest.1 },
     StepPhase.AdvanceBodies :: StepPhase.CullBodies :: rest.2)

/-! ## Concrete fixtures for witnesses and counterexamples (over `ℚ`) -/

/-- Trivial trig operations over `ℚ`, for evaluating the orbital code at
concrete inputs where the claim at hand does not depend on their values. -/
def qOps : TrigOps ℚ := ⟨fun _ => 0, fun _ => 0, fun _ => 0, fun _ _ => 0, 4⟩

/-- A minimal atmosphere configuration (no gas table entries). -/
def qcfg : AtmosphereConfig ℚ := ⟨1, 2, 20, 1/4, fun _ => none⟩

/-- A minimal game configuration. -/
def qGameCfg : GameConfig ℚ := ⟨qcfg⟩

/-- A 2×1 all-floor ship with vacuum atmosphere and no devices. -/
def witness_ship : ShipInterior ℚ where
  width := 2
  height := 1
  tiles := fun i => if i < 2 then TileType.Floor else TileType.Empty
  tile_atmos := fun _ => TileAtmosphere.vacuum 20
  power := ⟨0, 0, 0⟩
  devices := []
  hull_shape := ⟨[]⟩

/-- A pawn standing at `(0, 0)`. -/
def witness_pawn : Pawn ℚ :=
  ⟨1, "P", 0, 0, PawnStatus.Awake, ⟨0, 0, 0⟩, ⟨[]⟩, 0⟩

/-- The fixture interior world. -/
def witness_interior : InteriorWorld ℚ := ⟨witness_ship, witness_pawn, [], 0⟩

/-! ## C9: pawn movement -/

/-- C9: a `MovePawn {dx, dy}` command moves the pawn to `(x+dx, y+dy)` when
that target is in bounds and its tile is Floor, Bed or DoorOpen (that is,
`is_passable`), and is a silent no-op — the pawn and the whole world are
unchanged — for any other target. -/
theorem try_move_pawn_spec (iw : InteriorWorld F) (dx dy : ℤ) :
    (iw.ship.in_bounds ((iw.pawn.x : ℤ) + dx) ((iw.pawn.y : ℤ) + dy) ∧
       (iw.ship.tile_type ((iw.pawn.x : ℤ) + dx).toNat ((iw.pawn.y : ℤ) + dy).toNat
          = TileType.Floor ∨
        iw.ship.tile_type ((iw.pawn.x : ℤ) + dx).toNat ((iw.pawn.y : ℤ) + dy).toNat
          = TileType.Bed ∨
        iw.ship.tile_type ((iw.pawn.x : ℤ) + dx).toNat ((iw.pawn.y : ℤ) + dy).toNat
          = TileType.DoorOpen) →
      iw.try_move_pawn dx dy =
        { iw with pawn := { iw.pawn with x := ((iw.pawn.x : ℤ) + dx).toNat,
                                         y := ((iw.pawn.y : ℤ) + dy).toNat } }) ∧
    (¬ (iw.ship.in_bounds ((iw.pawn.x : ℤ) + dx) ((iw.pawn.y : ℤ) + dy) ∧
         (iw.ship.tile_type ((iw.pawn.x : ℤ) + dx).toNat ((iw.pawn.y : ℤ) + dy).toNat
            = TileType.Floor ∨
          iw.ship.tile_type ((iw.pawn.x : ℤ) + dx).toNat ((iw.pawn.y : ℤ) + dy).toNat
            = TileType.Bed ∨
          iw.ship.tile_type ((iw.pawn.x : ℤ) + dx).toNat ((iw.pawn.y : ℤ) + dy).toNat
            = TileType.DoorOpen)) →
      iw.try_move_pawn dx dy = iw) := by
  constructor
  · intro h
    rw [InteriorWorld.try_move_pawn,
      if_pos (show iw.ship.is_passable ((iw.pawn.x : ℤ) + dx) ((iw.pawn.y : ℤ) + dy) from h)]
  · intro h
    rw [InteriorWorld.try_move_pawn,
      if_neg (show ¬ iw.ship.is_passable ((iw.pawn.x : ℤ) + dx) ((iw.pawn.y : ℤ) + dy) from h)]

/-- Witness for C9: on the 2×1 floor fixture, moving right by one tile from
`(0,0)` puts the pawn on `(1,0)`. -/
theorem try_move_pawn_spec_witness :
    witness_interior.try_move_pawn 1 0 =
      { witness_interior with pawn :=
          { witness_interior.pawn with
              x := ((witness_interior.pawn.x : ℤ) + 1).toNat,
              y := ((witness_interior.pawn.y : ℤ) + 0).toNat } } :=
  (try_move_pawn_spec witness_interior 1 0).1 (by decide)

/-! ## C6: pawn breathing -/

/-- `apply_health_damage` leaves the ship untouched. -/
theorem apply_health_damage_ship (iw : InteriorWorld F) (amount : F) :
    (iw.apply_health_damage amount).ship = iw.ship := by
  rw [InteriorWorld.apply_health_damage]
  split
  · rfl
  · rfl

/-- `apply_health_damage` leaves the suffocation time untouched. -/
theorem apply_health_damage_sufftime (iw : InteriorWorld F) (amount : F) :
    (iw.apply_health_damage amount).pawn.suffocation_time = iw.pawn.suffocation_time := by
  rw [InteriorWorld.apply_health_damage]
  split
  · rfl
  · rfl

/-- C6: every atmosphere timestep `dt > 0`, a pawn on a breathable tile
consumes exactly `min(available, required)` O2 (with
`required = O2_CONSUMPTION_KG_PER_SEC * dt`) from its tile, adds
`CO2_PRODUCTION_KG_PER_SEC * dt` scaled by the fraction `consumed/required`,
and its suffocation time grows by `dt` exactly when the consumed O2 is below
90% of the requirement, otherwise resets to zero; on a tile without an
atmosphere cell the pawn is suffocating and the time grows by `dt`. -/
theorem apply_pawn_atmos_effects_spec (iw : InteriorWorld F) (dt : F)
    (cfg : AtmosphereConfig F) (hdt : 0 < dt) :
    (∀ cell, iw.ship.tile_atmos_cell iw.pawn.x iw.pawn.y = some cell →
      ((iw.apply_pawn_atmos_effects dt cfg).ship.tile_atmos
          (tile_idx iw.pawn.x iw.pawn.y iw.ship.width)).o2_kg
        = cell.o2_kg - min cell.o2_kg (O2_CONSUMPTION_KG_PER_SEC * dt) ∧
      ((iw.apply_pawn_atmos_effects dt cfg).ship.tile_atmos
          (tile_idx iw.pawn.x iw.pawn.y iw.ship.width)).co2_kg
        = cell.co2_kg + CO2_PRODUCTION_KG_PER_SEC * dt *
            (min cell.o2_kg (O2_CONSUMPTION_KG_PER_SEC * dt) / (O2_CONSUMPTION_KG_PER_SEC * dt)) ∧
      (iw.apply_pawn_atmos_effects dt cfg).pawn.suffocation_time
        = (if min cell.o2_kg (O2_CONSUMPTION_KG_PER_SEC * dt)
              < O2_CONSUMPTION_KG_PER_SEC * dt * 0.9
           then iw.pawn.suffocation_time + dt else 0)) ∧
    (iw.ship.tile_atmos_cell iw.pawn.x iw.pawn.y = none →
      (iw.apply_pawn_atmos_effects dt cfg).pawn.suffocation_time
        = iw.pawn.suffocation_time + dt) := by
  have hreq : 0 < O2_CONSUMPTION_KG_PER_SEC * dt := by
    have h1 : (0 : F) < O2_CONSUMPTION_KG_PER_SEC := by
      rw [O2_CONSUMPTION_KG_PER_SEC]; norm_num
    positivity
  constructor
  · intro cell hcell
    refine ⟨?_, ?_, ?_⟩
    · simp only [InteriorWorld.apply_pawn_atmos_effects, hcell, if_pos hreq,
        apply_ite (InteriorWorld.ship), apply_health_damage_ship, ite_self,
        apply_ite (fun s : ShipInterior F =>
          (s.tile_atmos (tile_idx iw.pawn.x iw.pawn.y iw.ship.width)).o2_kg)]
      simp [upd]
    · simp only [InteriorWorld.apply_pawn_atmos_effects, hcell, if_pos hreq,
        apply_ite (InteriorWorld.ship), apply_health_damage_ship, ite_self,
        apply_ite (fun s : ShipInterior F =>
          (s.tile_atmos (tile_idx iw.pawn.x iw.pawn.y iw.ship.width)).co2_kg)]
      simp [upd]
    · simp only [InteriorWorld.apply_pawn_atmos_effects, hcell, if_pos hreq,
        apply_ite (fun w : InteriorWorld F => w.pawn.suffocation_time),
        apply_health_damage_sufftime, ite_self]
  · intro hnone
    rw [InteriorWorld.apply_pawn_atmos_effects, hnone]
    simp only
    rw [apply_health_damage_sufftime]
    simp only
    rw [apply_health_damage_sufftime]

/-- Witness for C6: on the fixture's vacuum floor tile, one breathing step of
one second consumes no O2 (none is available) and the suffocation timer grows
by the timestep. -/
theorem apply_pawn_atmos_effects_spec_witness :
    (witness_interior.apply_pawn_atmos_effects 1 qcfg).pawn.suffocation_time
      = witness_interior.pawn.suffocation_time + 1 := by
  have h := ((apply_pawn_atmos_effects_spec witness_interior 1 qcfg (by norm_num)).1
    (TileAtmosphere.vacuum 20) rfl).2.2
  rw [h]
  rw [if_pos]
  simp [TileAtmosphere.vacuum, O2_CONSUMPTION_KG_PER_SEC]
  norm_num

/-! ## C10: InteractAt touches at most the first containing device -/

/-- The `DeviceData` variants handled only by the wildcard `_ => {}` arm of
`interact_at`: device types with no interaction behaviour. -/
def DeviceData.no_interaction : DeviceData F → Prop
  | DeviceData.BedDevice => False
  | DeviceData.DoorDevice _ => False
  | DeviceData.Light _ => False
  | DeviceData.Reactor _ => False
  | DeviceData.Dispenser _ => False
  | DeviceData.FoodGenerator _ => False
  | _ => True

/-- `set_tile_type` never touches the device list. -/
theorem set_tile_type_devices (s : ShipInterior F) (x y : ℕ) (tt : TileType)
    (cfg : AtmosphereConfig F) : (s.set_tile_type x y tt cfg).devices = s.devices := by
  simp only [ShipInterior.set_tile_type]
  split_ifs <;> rfl

/-- Folding `set_tile_type` over a tile list never touches the device list. -/
theorem foldl_set_tile_type_devices (tt : TileType) (cfg : AtmosphereConfig F) :
    ∀ (fp : List (ℕ × ℕ)) (sh : ShipInterior F),
      (fp.foldl (fun sh p => sh.set_tile_type p.1 p.2 tt cfg) sh).devices = sh.devices
  | [], _ => rfl
  | p :: fp, sh => by
      rw [List.foldl_cons, foldl_set_tile_type_devices tt cfg fp, set_tile_type_devices]

/-- `toggle_sleep` leaves the ship untouched. -/
theorem toggle_sleep_ship (iw : InteriorWorld F) : iw.toggle_sleep.ship = iw.ship := by
  rw [InteriorWorld.toggle_sleep]
  split_ifs <;> rfl

/-- Point lookups away from the written index are unchanged by `List.set`. -/
theorem list_get?_set_ne {α : Type} (l : List α) (i j : ℕ) (a : α) (hj : j ≠ i) :
    (l.set i a).get? j = l.get? j := by
  simp [List.get?_eq_getElem?, List.getElem?_set_ne (Ne.symm hj)]

/-- `interact_at` leaves every device other than the one found by `findIdx?`
unchanged (this is the `break` after the first containing device). -/
theorem interact_at_devices_frame (iw : InteriorWorld F) (x y : ℕ)
    (cfg : AtmosphereConfig F) (i : ℕ)
    (hfind : iw.ship.devices.findIdx? (fun d => decide (device_contains d x y)) = some i)
    (j : ℕ) (hj : j ≠ i) :
    (iw.interact_at x y cfg).ship.devices.get? j = iw.ship.devices.get? j := by
  have hlen : i < iw.ship.devices.length :=
    (List.findIdx?_eq_some_iff_findIdx_eq.mp hfind).1
  have hget : iw.ship.devices.get? i = some (iw.ship.devices.get ⟨i, hlen⟩) :=
    List.get?_eq_get hlen
  rw [InteriorWorld.interact_at]
  by_cases hoob : iw.ship.width ≤ x ∨ iw.ship.height ≤ y
  · rw [if_pos hoob]
  rw [if_neg hoob]
  simp only [hfind, hget]
  cases hdata : (iw.ship.devices.get ⟨i, hlen⟩).data with
  | Tank _ => rfl
  | Reactor rdata =>
    simp only []
    split_ifs
    · exact list_get?_set_ne _ _ _ _ hj
    · rfl
  | Dispenser _ =>
    exact list_get?_set_ne _ _ _ _ hj
  | NavStation _ => rfl
  | Transponder _ => rfl
  | ShipComputer _ => rfl
  | BedDevice =>
    simp only []
    split_ifs
    · rw [toggle_sleep_ship]
    · rfl
  | Toilet => rfl
  | FoodGenerator fdata =>
    simp only []
    split_ifs
    · exact list_get?_set_ne _ _ _ _ hj
    · rfl
  | RCSThruster _ => rfl
  | Light _ =>
    exact list_get?_set_ne _ _ _ _ hj
  | DoorDevice ddata =>
    simp only []
    rw [foldl_set_tile_type_devices]
    exact list_get?_set_ne _ _ _ _ hj
  | PowerLine => rfl
  | GasLine => rfl

/-- When the first containing device has a no-interaction type, `interact_at`
is a no-op on the whole world. -/
theorem interact_at_no_interaction_eq (iw : InteriorWorld F) (x y : ℕ)
    (cfg : AtmosphereConfig F) (i : ℕ) (d : Device F)
    (hfind : iw.ship.devices.findIdx? (fun d => decide (device_contains d x y)) = some i)
    (hget : iw.ship.devices.get? i = some d)
    (hno : d.data.no_interaction) : iw.interact_at x y cfg = iw := by
  rw [InteriorWorld.interact_at]
  by_cases hoob : iw.ship.width ≤ x ∨ iw.ship.height ≤ y
  · rw [if_pos hoob]
  rw [if_neg hoob]
  simp only [hfind, hget]
  cases hdata : d.data with
  | Tank _ => rfl
  | Reactor _ => rw [hdata] at hno; exact (hno : False).elim
  | Dispenser _ => rw [hdata] at hno; exact (hno : False).elim
  | NavStation _ => rfl
  | Transponder _ => rfl
  | ShipComputer _ => rfl
  | BedDevice => rw [hdata] at hno; exact (hno : False).elim
  | Toilet => rfl
  | FoodGenerator _ => rw [hdata] at hno; exact (hno : False).elim
  | RCSThruster _ => rfl
  | Light _ => rw [hdata] at hno; exact (hno : False).elim
  | DoorDevice _ => rw [hdata] at hno; exact (hno : False).elim
  | PowerLine => rfl
  | GasLine => rfl

/-- C10: an `InteractAt {x, y}` command affects at most one device — the first
device in the list whose footprint contains `(x, y)` (every device before it
fails the containment test, every device at a different index is unchanged),
out-of-grid coordinates make the command a total no-op, and when that first
device has a type with no interaction behaviour the whole world is unchanged. -/
theorem interact_at_first_device_only (iw : InteriorWorld F) (x y : ℕ)
    (cfg : AtmosphereConfig F) :
    ((iw.ship.width ≤ x ∨ iw.ship.height ≤ y) → iw.interact_at x y cfg = iw) ∧
    (iw.ship.devices.findIdx? (fun d => decide (device_contains d x y)) = none →
      iw.interact_at x y cfg = iw) ∧
    ∀ i, iw.ship.devices.findIdx? (fun d => decide (device_contains d x y)) = some i →
      (∀ d, iw.ship.devices.get? i = some d → device_contains d x y) ∧
      (∀ j d, j < i → iw.ship.devices.get? j = some d → ¬ device_contains d x y) ∧
      (∀ j, j ≠ i →
        (iw.interact_at x y cfg).ship.devices.get? j = iw.ship.devices.get? j) ∧
      (∀ d, iw.ship.devices.get? i = some d → d.data.no_interaction →
        iw.interact_at x y cfg = iw) := by
  refine ⟨?_, ?_, ?_⟩
  · intro h
    rw [InteriorWorld.interact_at, if_pos h]
  · intro h
    rw [InteriorWorld.interact_at]
    by_cases hoob : iw.ship.width ≤ x ∨ iw.ship.height ≤ y
    · rw [if_pos hoob]
    rw [if_neg hoob]
    simp only [h]
  · intro i hfind
    obtain ⟨hlen, hidx⟩ := List.findIdx?_eq_some_iff_findIdx_eq.mp hfind
    refine ⟨?_, ?_, fun j hj => interact_at_devices_frame iw x y cfg i hfind j hj,
      fun d hget hno => interact_at_no_interaction_eq iw x y cfg i d hfind hget hno⟩
    · intro d hd
      have h1 : iw.ship.devices.get ⟨i, hlen⟩ = d :=
        Option.some.inj ((List.get?_eq_get hlen).symm.trans hd)
      set p : Device F → Bool := fun d => decide (device_contains d x y) with hp
      have hb : p (iw.ship.devices.get ⟨i, hlen⟩) = true := by
        subst hidx
        simp only [List.get_eq_getElem]
        exact List.findIdx_getElem
      rw [h1, hp] at hb
      exact of_decide_eq_true hb
    · intro j d hj hd
      have hjlen : j < iw.ship.devices.length := lt_trans hj hlen
      have h1 : iw.ship.devices.get ⟨j, hjlen⟩ = d :=
        Option.some.inj ((List.get?_eq_get hjlen).symm.trans hd)
      set p : Device F → Bool := fun d => decide (device_contains d x y) with hp
      have hb : p (iw.ship.devices.get ⟨j, hjlen⟩) = false := by
        simp only [List.get_eq_getElem]
        exact List.not_of_lt_findIdx (hidx ▸ hj)
      rw [h1, hp] at hb
      exact of_decide_eq_false hb

/-- A 1×1 tank device at the origin (no interaction behaviour). -/
def c10_tank : Device ℚ :=
  ⟨1, DeviceType.Tank, 0, 0, 1, 1, 1/4, true, DeviceData.Tank ⟨100, 0, 0, 0, 0⟩⟩

/-- A 1×1 light device at the origin, behind the tank in the device list. -/
def c10_light : Device ℚ :=
  ⟨2, DeviceType.Light, 0, 0, 1, 1, 1/10, true, DeviceData.Light ⟨1, true⟩⟩

/-- Fixture interior with two overlapping devices at `(0, 0)`. -/
def c10_interior : InteriorWorld ℚ :=
  { witness_interior with
      ship := { witness_ship with devices := [c10_tank, c10_light] } }

/-- Witness for C10: at the fixture, the first containing device is the tank
(no interaction type), so the command is a no-op and in particular the second
device, whose footprint also contains `(0, 0)`, is untouched. -/
theorem interact_at_first_device_only_witness :
    (c10_interior.interact_at 0 0 qcfg).ship.devices.get? 1 =
      c10_interior.ship.devices.get? 1 ∧
    c10_interior.interact_at 0 0 qcfg = c10_interior := by
  constructor
  · exact ((interact_at_first_device_only c10_interior 0 0 qcfg).2.2 0 rfl).2.2.1 1
      (by decide)
  · exact ((interact_at_first_device_only c10_interior 0 0 qcfg).2.2 0 rfl).2.2.2
      c10_tank rfl trivial

/-! ## C7: the Xenon dispenser is a deliberate sink -/

/-- Point lookup at the written index after `List.set`. -/
theorem list_get?_set_self {α : Type} (l : List α) (i : ℕ) (a b : α)
    (hb : l.get? i = some b) : (l.set i a).get? i = some a := by
  have hi : i < l.length := by
    obtain ⟨h, -⟩ := List.get?_eq_some.mp hb
    exact h
  simp [List.get?_eq_getElem?, List.getElem?_set_self, hi]

/-- C7: an online, active dispenser configured for Xenon with a positive
transfer amount and a connected tank found by id withdraws
`min(tank.xenon_kg, rate · dt)` from the tank's xenon but injects nothing:
the whole tile atmosphere vector is unchanged by the device step. -/
theorem step_device_xenon_sink (s : ShipInterior F) (dt_f32 : F) (i : ℕ)
    (device : Device F) (ddata : DispenserData F) (tank_id j : ℕ)
    (tank_device : Device F) (tank : TankData F)
    (hdev : s.devices.get? i = some device)
    (hdata : device.data = DeviceData.Dispenser ddata)
    (hon : device.online ∧ ddata.active)
    (htr : 0 < ddata.rate_kg_per_s * dt_f32)
    (hgas : ddata.gas_type = GasType.Xenon)
    (htid : ddata.connected_tank_id = some tank_id)
    (hfound : (List.range s.devices.length).find? (fun j =>
        j ≠ i ∧ ((s.devices.get? j).map Device.id) = some tank_id) = some j)
    (htdev : s.devices.get? j = some tank_device)
    (htank : tank_device.data = DeviceData.Tank tank) :
    (s.step_device dt_f32 i).tile_atmos = s.tile_atmos ∧
    (s.step_device dt_f32 i).devices.get? j =
      some { tank_device with
        data := DeviceData.Tank { tank with
          xenon_kg := tank.xenon_kg - min tank.xenon_kg (ddata.rate_kg_per_s * dt_f32) } } := by
  rw [ShipInterior.step_device]
  simp only [hdev, hdata, htid, hfound, htdev, htank, hgas]
  rw [if_neg (not_not_intro hon), if_neg (not_le.mpr htr), if_neg (lt_irrefl (0 : F))]
  exact ⟨rfl, list_get?_set_self _ _ _ _ htdev⟩

/-- A 1×1 Xenon dispenser at the origin, connected to tank id 20. -/
def c7_dispenser_device : Device ℚ :=
  ⟨10, DeviceType.Dispenser, 0, 0, 1, 1, 1/4, true,
    DeviceData.Dispenser ⟨true, 1, GasType.Xenon, some 20⟩⟩

/-- A 1×1 tank with id 20 holding some of each gas. -/
def c7_tank_device : Device ℚ :=
  ⟨20, DeviceType.Tank, 1, 0, 1, 1, 1/4, true, DeviceData.Tank ⟨100, 1, 2, 3, 5⟩⟩

/-- Fixture ship for the Xenon-sink witness. -/
def c7_ship : ShipInterior ℚ :=
  { witness_ship with devices := [c7_dispenser_device, c7_tank_device] }

/-- Witness for C7 at the fixture ship, `dt = 1`: the tank loses
`min 5 (1·1)` of xenon and no tile's atmosphere changes. -/
theorem step_device_xenon_sink_witness :
    (c7_ship.step_device 1 0).tile_atmos = c7_ship.tile_atmos ∧
    (c7_ship.step_device 1 0).devices.get? 1 =
      some { c7_tank_device with
        data := DeviceData.Tank ⟨100, 1, 2, 3, 5 - min 5 (1 * 1)⟩ } :=
  step_device_xenon_sink c7_ship 1 0 c7_dispenser_device
    ⟨true, 1, GasType.Xenon, some 20⟩ 20 1 c7_tank_device ⟨100, 1, 2, 3, 5⟩
    rfl rfl ⟨rfl, rfl⟩ (by norm_num) rfl rfl rfl rfl rfl

/-! ## C1: diffusion mass conservation -/

/-- Sums over a list split pointwise additions. -/
theorem list_sum_map_add {α : Type} (l : List α) (f g : α → F) :
    (l.map fun i => f i + g i).sum = (l.map f).sum + (l.map g).sum := by
  induction l with
  | nil => simp
  | cons a l ih => simp only [List.map_cons, List.sum_cons, ih]; ring

/-- Writing one slot shifts a range sum by the difference at that slot. -/
theorem sum_map_range_upd {g : ℕ → F} {j : ℕ} {v : F} :
    ∀ n, j < n → ((List.range n).map (upd g j v)).sum
      = ((List.range n).map g).sum + (v - g j)
  | 0, h => absurd h (Nat.not_lt_zero j)
  | n + 1, h => by
    rw [List.range_succ]
    simp only [List.map_append, List.sum_append, List.map_cons, List.map_nil,
      List.sum_cons, List.sum_nil]
    rcases Nat.lt_succ_iff_lt_or_eq.mp h with h1 | h1
    · rw [sum_map_range_upd n h1, upd, if_neg (by omega : ¬ n = j)]
      ring
    · subst h1
      rw [List.map_congr_left (fun i hi => ?_), upd, if_pos rfl]
      · ring
      · have hij : i < j := List.mem_range.mp hi
        rw [upd]
        exact if_neg (by omega)

/-- The paired add/subtract writes of one sweep entry cancel in a range sum,
even when both slots coincide (the second write reads the first). -/
theorem sum_map_range_upd2 (G : ℕ → F) (a b : ℕ) (d : F) (n : ℕ)
    (ha : a < n) (hb : b < n) :
    ((List.range n).map (upd (upd G a (G a + d)) b ((upd G a (G a + d)) b - d))).sum
      = ((List.range n).map G).sum := by
  rw [sum_map_range_upd n hb, sum_map_range_upd n ha]
  ring

/-- One sweep entry preserves the range sum of the O2 delta buffer. -/
theorem diffusion_pair_update_o2 (atm : ℕ → TileAtmosphere F) (factor : F)
    (deltas : ℕ → GasDelta F) (p : ℕ × ℕ) (n : ℕ) (h1 : p.1 < n) (h2 : p.2 < n) :
    ((List.range n).map (fun i => (diffusion_pair_update atm factor deltas p i).o2_kg)).sum
      = ((List.range n).map (fun i => (deltas i).o2_kg)).sum := by
  have hfe : (fun i => (diffusion_pair_update atm factor deltas p i).o2_kg)
      = upd (upd (fun i => (deltas i).o2_kg) p.1
              ((deltas p.1).o2_kg + ((atm p.2).o2_kg - (atm p.1).o2_kg) * factor))
          p.2
          ((upd (fun i => (deltas i).o2_kg) p.1
              ((deltas p.1).o2_kg + ((atm p.2).o2_kg - (atm p.1).o2_kg) * factor)) p.2
            - ((atm p.2).o2_kg - (atm p.1).o2_kg) * factor) := by
    funext i
    simp only [diffusion_pair_update, upd]
    split_ifs <;> rfl
  rw [hfe]
  exact sum_map_range_upd2 _ _ _ _ n h1 h2

/-- One sweep entry preserves the range sum of the N2 delta buffer. -/
theorem diffusion_pair_update_n2 (atm : ℕ → TileAtmosphere F) (factor : F)
    (deltas : ℕ → GasDelta F) (p : ℕ × ℕ) (n : ℕ) (h1 : p.1 < n) (h2 : p.2 < n) :
    ((List.range n).map (fun i => (diffusion_pair_update atm factor deltas p i).n2_kg)).sum
      = ((List.range n).map (fun i => (deltas i).n2_kg)).sum := by
  have hfe : (fun i => (diffusion_pair_update atm factor deltas p i).n2_kg)
      = upd (upd (fun i => (deltas i).n2_kg) p.1
              ((deltas p.1).n2_kg + ((atm p.2).n2_kg - (atm p.1).n2_kg) * factor))
          p.2
          ((upd (fun i => (deltas i).n2_kg) p.1
              ((deltas p.1).n2_kg + ((atm p.2).n2_kg - (atm p.1).n2_kg) * factor)) p.2
            - ((atm p.2).n2_kg - (atm p.1).n2_kg) * factor) := by
    funext i
    simp only [diffusion_pair_update, upd]
    split_ifs <;> rfl
  rw [hfe]
  exact sum_map_range_upd2 _ _ _ _ n h1 h2

/-- One sweep entry preserves the range sum of the CO2 delta buffer. -/
theorem diffusion_pair_update_co2 (atm : ℕ → TileAtmosphere F) (factor : F)
    (deltas : ℕ → GasDelta F) (p : ℕ × ℕ) (n : ℕ) (h1 : p.1 < n) (h2 : p.2 < n) :
    ((List.range n).map (fun i => (diffusion_pair_update atm factor deltas p i).co2_kg)).sum
      = ((List.range n).map (fun i => (deltas i).co2_kg)).sum := by
  have hfe : (fun i => (diffusion_pair_update atm factor deltas p i).co2_kg)
      = upd (upd (fun i => (deltas i).co2_kg) p.1
              ((deltas p.1).co2_kg + ((atm p.2).co2_kg - (atm p.1).co2_kg) * factor))
          p.2
          ((upd (fun i => (deltas i).co2_kg) p.1
              ((deltas p.1).co2_kg + ((atm p.2).co2_kg - (atm p.1).co2_kg) * factor)) p.2
            - ((atm p.2).co2_kg - (atm p.1).co2_kg) * factor) := by
    funext i
    simp only [diffusion_pair_update, upd]
    split_ifs <;> rfl
  rw [hfe]
  exact sum_map_range_upd2 _ _ _ _ n h1 h2

/-- The whole sweep preserves the range sums of the delta buffer, for any
list of in-bounds pairs. -/
theorem foldl_pair_update_sum (atm : ℕ → TileAtmosphere F) (factor : F) (n : ℕ) :
    ∀ (ps : List (ℕ × ℕ)), (∀ p ∈ ps, p.1 < n ∧ p.2 < n) →
      ∀ (deltas : ℕ → GasDelta F),
      (((List.range n).map
          (fun i => ((ps.foldl (diffusion_pair_update atm factor) deltas) i).o2_kg)).sum
        = ((List.range n).map (fun i => (deltas i).o2_kg)).sum) ∧
      (((List.range n).map
          (fun i => ((ps.foldl (diffusion_pair_update atm factor) deltas) i).n2_kg)).sum
        = ((List.range n).map (fun i => (deltas i).n2_kg)).sum) ∧
      (((List.range n).map
          (fun i => ((ps.foldl (diffusion_pair_update atm factor) deltas) i).co2_kg)).sum
        = ((List.range n).map (fun i => (deltas i).co2_kg)).sum)
  | [], _, deltas => ⟨rfl, rfl, rfl⟩
  | p :: ps, hb, deltas => by
    have hp := hb p (List.mem_cons_self p ps)
    have ih := foldl_pair_update_sum atm factor n ps
      (fun q hq => hb q (List.mem_cons_of_mem p hq))
      (diffusion_pair_update atm factor deltas p)
    rw [List.foldl_cons]
    exact ⟨ih.1.trans (diffusion_pair_update_o2 atm factor deltas p n hp.1 hp.2),
      ih.2.1.trans (diffusion_pair_update_n2 atm factor deltas p n hp.1 hp.2),
      ih.2.2.trans (diffusion_pair_update_co2 atm factor deltas p n hp.1 hp.2)⟩

/-- Row-major flat indices of in-range coordinates are in range. -/
theorem tile_idx_lt (x y w h : ℕ) (hx : x < w) (hy : y < h) : tile_idx x y w < w * h := by
  rw [tile_idx]
  calc y * w + x < (y + 1) * w := by rw [Nat.succ_mul]; omega
    _ ≤ h * w := Nat.mul_le_mul_right w (Nat.succ_le_of_lt hy)
    _ = w * h := Nat.mul_comm h w

/-- Every pair produced by the sweep refers to two in-range vector slots. -/
theorem diffusion_pairs_bounds (s : ShipInterior F) :
    ∀ p ∈ s.diffusion_pairs, p.1 < s.width * s.height ∧ p.2 < s.width * s.height := by
  intro p hp
  simp only [ShipInterior.diffusion_pairs, List.mem_flatMap, List.mem_range] at hp
  obtain ⟨y, hy, x, hx, hmem⟩ := hp
  simp only [ShipInterior.tile_pairs] at hmem
  by_cases hs : tile_supports_atmos (s.tiles (tile_idx x y s.width))
  case neg =>
    rw [if_neg hs] at hmem
    exact absurd hmem (List.not_mem_nil p)
  rw [if_pos hs] at hmem
  obtain ⟨d, -, hsome⟩ := List.mem_filterMap.mp hmem
  split_ifs at hsome with hin hsup
  · obtain ⟨hnx0, hny0, hnxw, hnyh⟩ := hin
    obtain rfl := Option.some.inj hsome
    constructor
    · exact tile_idx_lt x y s.width s.height hx hy
    · exact tile_idx_lt _ _ s.width s.height (by omega) (by omega)

/-- Each per-gas range sum of the full delta buffer is zero. -/
theorem diffusion_deltas_sum_zero (s : ShipInterior F) (factor : F) :
    (((List.range (s.width * s.height)).map
        (fun i => (s.diffusion_deltas factor i).o2_kg)).sum = 0) ∧
    (((List.range (s.width * s.height)).map
        (fun i => (s.diffusion_deltas factor i).n2_kg)).sum = 0) ∧
    (((List.range (s.width * s.height)).map
        (fun i => (s.diffusion_deltas factor i).co2_kg)).sum = 0) := by
  have h := foldl_pair_update_sum s.tile_atmos factor (s.width * s.height)
    s.diffusion_pairs (diffusion_pairs_bounds s) (fun _ => GasDelta.zero)
  rw [ShipInterior.diffusion_deltas]
  refine ⟨h.1.trans ?_, h.2.1.trans ?_, h.2.2.trans ?_⟩ <;>
    simp [GasDelta.zero]

/-- Applying the delta buffer slotwise (with any per-slot function that agrees
with `add_delta` on the in-range slots) leaves the gas totals unchanged. -/
theorem total_atmos_apply_deltas (s : ShipInterior F) (factor : F)
    (f : ℕ → TileAtmosphere F)
    (hf : ∀ i, i < s.width * s.height →
      f i = (s.tile_atmos i).add_delta (s.diffusion_deltas factor i)) :
    ({ s with tile_atmos := fun i =>
        if i < s.width * s.height then f i else s.tile_atmos i } : ShipInterior F).total_atmos
      = s.total_atmos := by
  have key : ∀ (proj : TileAtmosphere F → F) (projd : GasDelta F → F),
      (∀ c dlt, proj (c.add_delta dlt) = proj c + projd dlt) →
      ((List.range (s.width * s.height)).map (fun i =>
        proj (if i < s.width * s.height then f i else s.tile_atmos i))).sum
        = ((List.range (s.width * s.height)).map (fun i => proj (s.tile_atmos i))).sum
          + ((List.range (s.width * s.height)).map (fun i =>
              projd (s.diffusion_deltas factor i))).sum := by
    intro proj projd hpd
    rw [List.map_congr_left (fun i hi => ?_), list_sum_map_add]
    have hin : i < s.width * s.height := List.mem_range.mp hi
    rw [if_pos hin, hf i hin, hpd]
  simp only [ShipInterior.total_atmos, GasTotals.mk.injEq]
  refine ⟨?_, ?_, ?_⟩
  · rw [key TileAtmosphere.o2_kg GasDelta.o2_kg (fun c dlt => rfl),
      (diffusion_deltas_sum_zero s factor).1, add_zero]
  · rw [key TileAtmosphere.n2_kg GasDelta.n2_kg (fun c dlt => rfl),
      (diffusion_deltas_sum_zero s factor).2.1, add_zero]
  · rw [key TileAtmosphere.co2_kg GasDelta.co2_kg (fun c dlt => rfl),
      (diffusion_deltas_sum_zero s factor).2.2, add_zero]

/-- C1: one diffusion sweep conserves the per-species gas totals exactly
before the final clamp, and the full `step_atmosphere` conserves them
whenever `clamp_non_negative` is the identity on every post-diffusion cell
(no cell was driven negative and no total fell under the dust threshold). -/
theorem step_atmosphere_conserves_total (s : ShipInterior F) (dt : F) :
    (s.step_atmosphere_raw dt).total_atmos = s.total_atmos ∧
    ((∀ i, i < s.width * s.height →
        (((s.tile_atmos i).add_delta
            (s.diffusion_deltas
              (min (ATMOS_DIFFUSION_COEFF * dt) ATMOS_DIFFUSION_MAX_FRACTION) i)).clamp_non_negative
          = (s.tile_atmos i).add_delta
              (s.diffusion_deltas
                (min (ATMOS_DIFFUSION_COEFF * dt) ATMOS_DIFFUSION_MAX_FRACTION) i))) →
      (s.step_atmosphere dt).total_atmos = s.total_atmos) := by
  constructor
  · simp only [ShipInterior.step_atmosphere_raw]
    split_ifs with h1 h2
    · rfl
    · rfl
    · exact total_atmos_apply_deltas s _ _ (fun i hi => rfl)
  · intro hclamp
    simp only [ShipInterior.step_atmosphere]
    split_ifs with h1 h2
    · rfl
    · rfl
    · exact total_atmos_apply_deltas s _ _ (fun i hi => hclamp i hi)

set_option maxHeartbeats 1000000 in
/-- Witness for C1 at the vacuum fixture ship with `dt = 1`: every
post-diffusion cell is fixed by the clamp, and both totals are conserved. -/
theorem step_atmosphere_conserves_total_witness :
    (witness_ship.step_atmosphere_raw 1).total_atmos = witness_ship.total_atmos ∧
    (witness_ship.step_atmosphere 1).total_atmos = witness_ship.total_atmos := by
  refine ⟨(step_atmosphere_conserves_total witness_ship 1).1,
    (step_atmosphere_conserves_total witness_ship 1).2 ?_⟩
  intro i hi
  have h2 : i < 2 := hi
  interval_cases i <;>
    norm_num [witness_ship, ShipInterior.diffusion_deltas, ShipInterior.diffusion_pairs,
      ShipInterior.tile_pairs, diffusion_pair_update, NEIGHBORS, tile_idx, upd, TileAtmosphere.add_delta,
      TileAtmosphere.clamp_non_negative, TileAtmosphere.vacuum, TileAtmosphere.total_mass,
      GasDelta.zero, List.range_succ, tile_supports_atmos, ATMOS_DIFFUSION_COEFF,
      ATMOS_DIFFUSION_MAX_FRACTION, min_def, max_def, TileAtmosphere.mk.injEq,
      List.filterMap_cons, List.filterMap_nil, List.foldl_cons, List.foldl_nil,
      List.flatMap_cons, List.flatMap_nil]

/-- The 2×2 all-floor counterexample ship: one kilogram of O2 in the corner
cell, vacuum elsewhere. -/
def c1_ship : ShipInterior ℚ :=
  { width := 2, height := 2,
    tiles := fun _ => TileType.Floor,
    tile_atmos := fun i => if i = 0 then ⟨1, 0, 0, 20⟩ else TileAtmosphere.vacuum 20,
    power := ⟨0, 0, 0⟩, devices := [], hull_shape := ⟨[]⟩ }

set_option maxHeartbeats 2000000 in
/-- C1 counterexample: with `dt = 2` the corner cell owes half a kilogram to
each of its three neighbours, goes negative, and the clamp then creates half a
kilogram of O2 out of nothing — far beyond the claimed `1e-5` tolerance. -/
theorem step_atmosphere_clamp_breaks_conservation :
    0 < (2 : ℚ) ∧
    (c1_ship.step_atmosphere 2).total_atmos.o2_kg = 3 / 2 ∧
    c1_ship.total_atmos.o2_kg = 1 ∧
    ¬ |(c1_ship.step_atmosphere 2).total_atmos.o2_kg - c1_ship.total_atmos.o2_kg|
        ≤ 1e-5 := by
  have hafter : (c1_ship.step_atmosphere 2).total_atmos.o2_kg = 3 / 2 := by
    norm_num [c1_ship, ShipInterior.step_atmosphere, ShipInterior.total_atmos,
      ShipInterior.diffusion_deltas, ShipInterior.diffusion_pairs,
      ShipInterior.tile_pairs, diffusion_pair_update, NEIGHBORS, tile_idx, upd, TileAtmosphere.add_delta,
      TileAtmosphere.clamp_non_negative, TileAtmosphere.vacuum,
      TileAtmosphere.total_mass, GasDelta.zero, List.range_succ,
      tile_supports_atmos, ATMOS_DIFFUSION_COEFF, ATMOS_DIFFUSION_MAX_FRACTION,
      min_def, max_def, List.filterMap_cons, List.filterMap_nil, List.foldl_cons,
      List.foldl_nil, List.flatMap_cons, List.flatMap_nil, List.map_cons,
      List.map_nil, List.sum_cons, List.sum_nil]
  have hbefore : c1_ship.total_atmos.o2_kg = 1 := by
    norm_num [c1_ship, ShipInterior.total_atmos, List.range_succ, TileAtmosphere.vacuum]
  refine ⟨by norm_num, hafter, hbefore, ?_⟩
  rw [hafter, hbefore, show (3 : ℚ) / 2 - 1 = 1 / 2 by norm_num,
    abs_of_pos (by norm_num : (0 : ℚ) < 1 / 2)]
  norm_num

/-! ## C5: the diffusion sweep visits each adjacent pair exactly once -/

attribute [ext] GasDelta

/-- `countP` distributes over `flatMap` as a sum of per-element counts. -/
theorem countP_flatMap {α β : Type} (l : List α) (f : α → List β) (p : β → Bool) :
    (l.flatMap f).countP p = (l.map fun a => (f a).countP p).sum := by
  induction l with
  | nil => rfl
  | cons a l ih =>
    rw [List.flatMap_cons, List.countP_append, List.map_cons, List.sum_cons, ih]

/-- `countP` after `filterMap` counts sources whose image satisfies the
predicate. -/
theorem countP_filterMap {α β : Type} (f : α → Option β) (p : β → Bool) :
    ∀ l : List α, (l.filterMap f).countP p
      = l.countP (fun a => ((f a).map p).getD false)
  | [] => rfl
  | a :: l => by
    cases hfa : f a with
    | none =>
      rw [List.filterMap_cons_none hfa, List.countP_cons, countP_filterMap f p l]
      simp [hfa]
    | some b =>
      rw [List.filterMap_cons_some hfa, List.countP_cons, List.countP_cons,
        countP_filterMap f p l]
      simp [hfa]

/-- A range sum of naturals supported on a single point. -/
theorem sum_map_range_single (f : ℕ → ℕ) :
    ∀ (n a : ℕ), a < n → (∀ i, i < n → i ≠ a → f i = 0) →
      ((List.range n).map f).sum = f a
  | 0, a, ha, _ => absurd ha (Nat.not_lt_zero a)
  | n + 1, a, ha, h0 => by
    rw [List.range_succ]
    simp only [List.map_append, List.sum_append, List.map_cons, List.map_nil,
      List.sum_cons, List.sum_nil]
    rcases Nat.lt_succ_iff_lt_or_eq.mp ha with h1 | h1
    · rw [sum_map_range_single f n a h1 (fun i hi hne => h0 i (by omega) hne),
        h0 n (by omega) (by omega)]
      omega
    · subst h1
      have hz : ((List.range a).map f).sum = 0 := by
        refine List.sum_eq_zero ?_
        intro t ht
        obtain ⟨i, hi, rfl⟩ := List.mem_map.mp ht
        have : i < a := List.mem_range.mp hi
        exact h0 i (by omega) (by omega)
      rw [hz]
      omega

/-- A range sum of naturals supported on two distinct points. -/
theorem sum_map_range_double (f : ℕ → ℕ) :
    ∀ (n a b : ℕ), a < n → b < n → a ≠ b →
      (∀ i, i < n → i ≠ a → i ≠ b → f i = 0) →
      ((List.range n).map f).sum = f a + f b
  | 0, a, _, ha, _, _, _ => absurd ha (Nat.not_lt_zero a)
  | n + 1, a, b, ha, hb, hab, h0 => by
    rw [List.range_succ]
    simp only [List.map_append, List.sum_append, List.map_cons, List.map_nil,
      List.sum_cons, List.sum_nil]
    by_cases han : a = n
    · have hbn : b < n := by omega
      rw [sum_map_range_single f n b hbn (fun i hi hne => h0 i (by omega) (by omega) hne),
        han]
      omega
    · by_cases hbn : b = n
      · rw [sum_map_range_single f n a (by omega)
          (fun i hi hne => h0 i (by omega) hne (by omega)), hbn]
        omega
      · rw [sum_map_range_double f n a b (by omega) (by omega) hab
          (fun i hi h1 h2 => h0 i (by omega) h1 h2), h0 n (by omega) (by omega) (by omega)]
        omega

/-- Row-major flat indices determine the coordinates within a row-bounded
grid. -/
theorem tile_idx_inj (w x y a b : ℕ) (hx : x < w) (ha : a < w)
    (h : tile_idx x y w = tile_idx a b w) : x = a ∧ y = b := by
  have hw : 0 < w := by omega
  rw [tile_idx, tile_idx] at h
  have d1 : (y * w + x) / w = y := by
    rw [Nat.add_comm, Nat.add_mul_div_right _ _ hw, Nat.div_eq_of_lt hx, Nat.zero_add]
  have d2 : (b * w + a) / w = b := by
    rw [Nat.add_comm, Nat.add_mul_div_right _ _ hw, Nat.div_eq_of_lt ha, Nat.zero_add]
  have hy : y = b := by rw [← d1, ← d2, h]
  subst hy
  exact ⟨by omega, rfl⟩

/-- Every entry contributed by source tile `(x, y)` has that tile's flat
index as its first component. -/
theorem tile_pairs_fst (s : ShipInterior F) (x y : ℕ) :
    ∀ pr ∈ s.tile_pairs x y, pr.1 = tile_idx x y s.width := by
  intro pr hpr
  simp only [ShipInterior.tile_pairs] at hpr
  split_ifs at hpr with hs
  · obtain ⟨d, -, hsome⟩ := List.mem_filterMap.mp hpr
    split_ifs at hsome
    all_goals
      first
        | (obtain rfl := Option.some.inj hsome; rfl)
        | exact Option.noConfusion hsome
  · exact absurd hpr (List.not_mem_nil pr)

/-- A tile that is neither end of the target pair contributes no counted
entry. -/
theorem tile_pairs_count_zero (s : ShipInterior F) (x y x1 y1 x2 y2 : ℕ)
    (hx : x < s.width)
    (hne1 : ¬(x = x1 ∧ y = y1)) (hne2 : ¬(x = x2 ∧ y = y2))
    (hx1 : x1 < s.width) (hx2 : x2 < s.width) :
    (s.tile_pairs x y).countP (fun pr =>
      decide (pr = (tile_idx x1 y1 s.width, tile_idx x2 y2 s.width)
        ∨ pr = (tile_idx x2 y2 s.width, tile_idx x1 y1 s.width))) = 0 := by
  refine List.countP_eq_zero.mpr ?_
  intro pr hpr hp
  have hfst : pr.1 = tile_idx x y s.width := tile_pairs_fst s x y pr hpr
  rcases of_decide_eq_true hp with heq | heq
  · have h1 : tile_idx x y s.width = tile_idx x1 y1 s.width := by
      rw [← hfst, heq]
    exact hne1 (tile_idx_inj s.width x y x1 y1 hx hx1 h1)
  · have h1 : tile_idx x y s.width = tile_idx x2 y2 s.width := by
      rw [← hfst, heq]
    exact hne2 (tile_idx_inj s.width x y x2 y2 hx hx2 h1)

/-- The counted entries of the source tile of the target pair are exactly the
`NEIGHBORS` directions that point at the other end. -/
theorem tile_pairs_count_source (s : ShipInterior F) (x1 y1 x2 y2 : ℕ)
    (hx1 : x1 < s.width) (hy1 : y1 < s.height)
    (hx2 : x2 < s.width) (hy2 : y2 < s.height)
    (hb1 : tile_supports_atmos (s.tiles (tile_idx x1 y1 s.width)) = true)
    (hb2 : tile_supports_atmos (s.tiles (tile_idx x2 y2 s.width)) = true)
    (hne12 : tile_idx x1 y1 s.width ≠ tile_idx x2 y2 s.width) :
    (s.tile_pairs x1 y1).countP (fun pr =>
      decide (pr = (tile_idx x1 y1 s.width, tile_idx x2 y2 s.width)
        ∨ pr = (tile_idx x2 y2 s.width, tile_idx x1 y1 s.width)))
      = NEIGHBORS.countP (fun d => decide (d = ((x2 : ℤ) - x1, (y2 : ℤ) - y1))) := by
  rw [ShipInterior.tile_pairs, if_pos hb1, countP_filterMap]
  refine List.countP_congr ?_
  intro d hd
  obtain ⟨a, b⟩ := d
  simp only []
  by_cases hin : 0 ≤ (x1 : ℤ) + a ∧ 0 ≤ (y1 : ℤ) + b ∧
      (x1 : ℤ) + a < (s.width : ℤ) ∧ (y1 : ℤ) + b < (s.height : ℤ)
  · rw [if_pos hin]
    obtain ⟨ha0, hb0, haw, hbh⟩ := hin
    by_cases hsup : tile_supports_atmos
        (s.tiles (tile_idx ((x1 : ℤ) + a).toNat ((y1 : ℤ) + b).toNat s.width)) = true
    · rw [if_pos hsup]
      simp only [Option.map_some', Option.getD_some, decide_eq_true_eq]
      constructor
      · rintro (heq | heq)
        · injection heq with h1 h2
          obtain ⟨hxx, hyy⟩ :=
            tile_idx_inj s.width _ _ x2 y2 (by omega) hx2 h2
          simp only [Prod.mk.injEq]
          omega
        · injection heq with h1 h2
          exact absurd h1 hne12
      · intro heq
        injection heq with h1 h2
        left
        have hxx : ((x1 : ℤ) + a).toNat = x2 := by omega
        have hyy : ((y1 : ℤ) + b).toNat = y2 := by omega
        rw [hxx, hyy]
    · rw [if_neg hsup]
      refine iff_of_false (by simp) ?_
      simp only [decide_eq_true_eq]
      intro heq
      injection heq with h1 h2
      have hxx : ((x1 : ℤ) + a).toNat = x2 := by omega
      have hyy : ((y1 : ℤ) + b).toNat = y2 := by omega
      rw [hxx, hyy] at hsup
      exact hsup hb2
  · rw [if_neg hin]
    refine iff_of_false (by simp) ?_
    simp only [decide_eq_true_eq]
    intro heq
    injection heq with h1 h2
    exact hin ⟨by omega, by omega, by omega, by omega⟩

/-- The two orientations of an undirected pair give the same count. -/
theorem countP_orient_swap (l : List (ℕ × ℕ)) (i j : ℕ) :
    l.countP (fun pr => decide (pr = (i, j) ∨ pr = (j, i)))
      = l.countP (fun pr => decide (pr = (j, i) ∨ pr = (i, j))) :=
  List.countP_congr (fun pr hpr => by
    rw [decide_eq_true_eq, decide_eq_true_eq]
    exact or_comm)

/-- Of the two directed offsets of an adjacent pair, exactly one lies in the
half-neighborhood `NEIGHBORS`. -/
theorem neighbors_one_direction (a b c d : ℤ) (hc : c = -a) (hd : d = -b)
    (ha1 : -1 ≤ a) (ha2 : a ≤ 1) (hb1 : -1 ≤ b) (hb2 : b ≤ 1)
    (hne : ¬(a = 0 ∧ b = 0)) :
    NEIGHBORS.countP (fun p => decide (p = (a, b)))
      + NEIGHBORS.countP (fun p => decide (p = (c, d))) = 1 := by
  subst hc
  subst hd
  interval_cases a <;> interval_cases b
  all_goals try decide
  all_goals exact absurd ⟨rfl, rfl⟩ hne

/-- The O2 component of one sweep entry, as an explicit signed contribution. -/
theorem diffusion_pair_update_o2_apply (atm : ℕ → TileAtmosphere F) (factor : F)
    (deltas : ℕ → GasDelta F) (p : ℕ × ℕ) (x : ℕ) :
    (diffusion_pair_update atm factor deltas p x).o2_kg
      = (deltas x).o2_kg
        + (if x = p.1 then ((atm p.2).o2_kg - (atm p.1).o2_kg) * factor else 0)
        - (if x = p.2 then ((atm p.2).o2_kg - (atm p.1).o2_kg) * factor else 0) := by
  obtain ⟨p1, p2⟩ := p
  simp only [diffusion_pair_update, upd]
  split_ifs <;> subst_vars <;> first | (exfalso; omega) | ring

/-- The N2 component of one sweep entry, as an explicit signed contribution. -/
theorem diffusion_pair_update_n2_apply (atm : ℕ → TileAtmosphere F) (factor : F)
    (deltas : ℕ → GasDelta F) (p : ℕ × ℕ) (x : ℕ) :
    (diffusion_pair_update atm factor deltas p x).n2_kg
      = (deltas x).n2_kg
        + (if x = p.1 then ((atm p.2).n2_kg - (atm p.1).n2_kg) * factor else 0)
        - (if x = p.2 then ((atm p.2).n2_kg - (atm p.1).n2_kg) * factor else 0) := by
  obtain ⟨p1, p2⟩ := p
  simp only [diffusion_pair_update, upd]
  split_ifs <;> subst_vars <;> first | (exfalso; omega) | ring

/-- The CO2 component of one sweep entry, as an explicit signed
contribution. -/
theorem diffusion_pair_update_co2_apply (atm : ℕ → TileAtmosphere F) (factor : F)
    (deltas : ℕ → GasDelta F) (p : ℕ × ℕ) (x : ℕ) :
    (diffusion_pair_update atm factor deltas p x).co2_kg
      = (deltas x).co2_kg
        + (if x = p.1 then ((atm p.2).co2_kg - (atm p.1).co2_kg) * factor else 0)
        - (if x = p.2 then ((atm p.2).co2_kg - (atm p.1).co2_kg) * factor else 0) := by
  obtain ⟨p1, p2⟩ := p
  simp only [diffusion_pair_update, upd]
  split_ifs <;> subst_vars <;> first | (exfalso; omega) | ring

/-- Sweep entries commute: each one adds a fixed contribution read from the
unmodified atmosphere (the Jacobi buffer discipline). -/
theorem diffusion_pair_update_comm (atm : ℕ → TileAtmosphere F) (factor : F)
    (deltas : ℕ → GasDelta F) (p q : ℕ × ℕ) :
    diffusion_pair_update atm factor (diffusion_pair_update atm factor deltas p) q
      = diffusion_pair_update atm factor (diffusion_pair_update atm factor deltas q) p := by
  funext x
  ext <;>
    simp only [diffusion_pair_update_o2_apply, diffusion_pair_update_n2_apply,
      diffusion_pair_update_co2_apply] <;>
    ring

/-- The sweep result is invariant under reordering the pair list. -/
theorem diffusion_deltas_order_invariant (s : ShipInterior F) (factor : F)
    (ps : List (ℕ × ℕ)) (hperm : ps.Perm s.diffusion_pairs) :
    ps.foldl (diffusion_pair_update s.tile_atmos factor) (fun _ => GasDelta.zero)
      = s.diffusion_deltas factor := by
  rw [ShipInterior.diffusion_deltas]
  haveI : RightCommutative (diffusion_pair_update s.tile_atmos factor) :=
    ⟨fun d p q => diffusion_pair_update_comm s.tile_atmos factor d p q⟩
  exact hperm.foldl_eq _

/-- One sweep entry writes `+delta` at its first slot, `-delta` at its second
slot and nothing elsewhere, with `delta = (cell_b - cell_a) * factor` per
gas. -/
theorem diffusion_pair_update_sends (atm : ℕ → TileAtmosphere F) (factor : F)
    (deltas : ℕ → GasDelta F) (p : ℕ × ℕ) (hne : p.1 ≠ p.2) :
    diffusion_pair_update atm factor deltas p p.1
      = ⟨(deltas p.1).o2_kg + ((atm p.2).o2_kg - (atm p.1).o2_kg) * factor,
         (deltas p.1).n2_kg + ((atm p.2).n2_kg - (atm p.1).n2_kg) * factor,
         (deltas p.1).co2_kg + ((atm p.2).co2_kg - (atm p.1).co2_kg) * factor⟩ ∧
    diffusion_pair_update atm factor deltas p p.2
      = ⟨(deltas p.2).o2_kg - ((atm p.2).o2_kg - (atm p.1).o2_kg) * factor,
         (deltas p.2).n2_kg - ((atm p.2).n2_kg - (atm p.1).n2_kg) * factor,
         (deltas p.2).co2_kg - ((atm p.2).co2_kg - (atm p.1).co2_kg) * factor⟩ ∧
    ∀ x, x ≠ p.1 → x ≠ p.2 → diffusion_pair_update atm factor deltas p x = deltas x := by
  refine ⟨?_, ?_, ?_⟩
  · simp only [diffusion_pair_update, upd]
    rw [if_neg hne, if_pos trivial]
  · simp only [diffusion_pair_update, upd]
    rw [if_pos trivial, if_neg (Ne.symm hne)]
  · intro x hx1 hx2
    simp only [diffusion_pair_update, upd]
    rw [if_neg hx2, if_neg hx1]

/-- C5: the sweep of `step_atmosphere` (i) visits every undirected pair of
adjacent in-bounds breathable tiles exactly once (one orientation, via the
half-neighborhood), (ii) transfers `(cell_b - cell_a) * factor` of each gas
per visited pair with `factor = min(ATMOS_DIFFUSION_COEFF * dt,
ATMOS_DIFFUSION_MAX_FRACTION)` into a separate delta buffer, (iii) produces a
delta buffer independent of the visitation order, and (iv) only applies the
buffer (with the clamp) after the full sweep. -/
theorem step_atmosphere_pair_sweep (s : ShipInterior F) (x1 y1 x2 y2 : ℕ) (dt : F)
    (hx1 : x1 < s.width) (hy1 : y1 < s.height)
    (hx2 : x2 < s.width) (hy2 : y2 < s.height)
    (hb1 : tile_supports_atmos (s.tiles (tile_idx x1 y1 s.width)) = true)
    (hb2 : tile_supports_atmos (s.tiles (tile_idx x2 y2 s.width)) = true)
    (hax1 : -1 ≤ (x2 : ℤ) - x1) (hax2 : (x2 : ℤ) - x1 ≤ 1)
    (hay1 : -1 ≤ (y2 : ℤ) - y1) (hay2 : (y2 : ℤ) - y1 ≤ 1)
    (hne : ¬(x1 = x2 ∧ y1 = y2)) (hdt : 0 < dt) :
    (s.diffusion_pairs.countP (fun pr =>
        decide (pr = (tile_idx x1 y1 s.width, tile_idx x2 y2 s.width)
          ∨ pr = (tile_idx x2 y2 s.width, tile_idx x1 y1 s.width))) = 1) ∧
    (∀ (deltas : ℕ → GasDelta F) (p : ℕ × ℕ), p.1 ≠ p.2 →
      diffusion_pair_update s.tile_atmos
          (min (ATMOS_DIFFUSION_COEFF * dt) ATMOS_DIFFUSION_MAX_FRACTION) deltas p p.1
        = ⟨(deltas p.1).o2_kg + ((s.tile_atmos p.2).o2_kg - (s.tile_atmos p.1).o2_kg)
              * min (ATMOS_DIFFUSION_COEFF * dt) ATMOS_DIFFUSION_MAX_FRACTION,
           (deltas p.1).n2_kg + ((s.tile_atmos p.2).n2_kg - (s.tile_atmos p.1).n2_kg)
              * min (ATMOS_DIFFUSION_COEFF * dt) ATMOS_DIFFUSION_MAX_FRACTION,
           (deltas p.1).co2_kg + ((s.tile_atmos p.2).co2_kg - (s.tile_atmos p.1).co2_kg)
              * min (ATMOS_DIFFUSION_COEFF * dt) ATMOS_DIFFUSION_MAX_FRACTION⟩) ∧
    (∀ ps : List (ℕ × ℕ), ps.Perm s.diffusion_pairs →
      ps.foldl (diffusion_pair_update s.tile_atmos
          (min (ATMOS_DIFFUSION_COEFF * dt) ATMOS_DIFFUSION_MAX_FRACTION))
          (fun _ => GasDelta.zero)
        = s.diffusion_deltas
            (min (ATMOS_DIFFUSION_COEFF * dt) ATMOS_DIFFUSION_MAX_FRACTION)) ∧
    ((s.step_atmosphere dt).tile_atmos = fun i =>
      if i < s.width * s.height then
        ((s.tile_atmos i).add_delta
          (s.diffusion_deltas
            (min (ATMOS_DIFFUSION_COEFF * dt) ATMOS_DIFFUSION_MAX_FRACTION) i)).clamp_non_negative
      else s.tile_atmos i) := by
  have hne12 : tile_idx x1 y1 s.width ≠ tile_idx x2 y2 s.width := by
    intro h
    exact hne (tile_idx_inj s.width x1 y1 x2 y2 hx1 hx2 h)
  refine ⟨?_, ?_, ?_, ?_⟩
  · rw [ShipInterior.diffusion_pairs, countP_flatMap]
    simp only [countP_flatMap]
    by_cases hy12 : y1 = y2
    · subst hy12
      have hx12 : x1 ≠ x2 := fun h => hne ⟨h, rfl⟩
      refine Eq.trans (sum_map_range_single _ s.height y1 hy1 ?_) ?_
      · intro y hy hney
        refine List.sum_eq_zero ?_
        intro t ht
        obtain ⟨x, hxmem, rfl⟩ := List.mem_map.mp ht
        exact tile_pairs_count_zero s x y x1 y1 x2 y1 (List.mem_range.mp hxmem)
          (fun hc => hney hc.2) (fun hc => hney hc.2) hx1 hx2
      · refine Eq.trans (sum_map_range_double _ s.width x1 x2 hx1 hx2 hx12 ?_) ?_
        · intro x hx hne1 hne2
          exact tile_pairs_count_zero s x y1 x1 y1 x2 y1 hx
            (fun hc => hne1 hc.1) (fun hc => hne2 hc.1) hx1 hx2
        · try simp only []
          rw [tile_pairs_count_source s x1 y1 x2 y1 hx1 hy1 hx2 hy1 hb1 hb2 hne12,
            countP_orient_swap (s.tile_pairs x2 y1) (tile_idx x1 y1 s.width)
              (tile_idx x2 y1 s.width),
            tile_pairs_count_source s x2 y1 x1 y1 hx2 hy1 hx1 hy1 hb2 hb1
              (Ne.symm hne12)]
          exact neighbors_one_direction _ _ _ _ (by ring) (by ring)
            hax1 hax2 hay1 hay2 (by omega)
    · refine Eq.trans (sum_map_range_double _ s.height y1 y2 hy1 hy2 hy12 ?_) ?_
      · intro y hy hney1 hney2
        refine List.sum_eq_zero ?_
        intro t ht
        obtain ⟨x, hxmem, rfl⟩ := List.mem_map.mp ht
        exact tile_pairs_count_zero s x y x1 y1 x2 y2 (List.mem_range.mp hxmem)
          (fun hc => hney1 hc.2) (fun hc => hney2 hc.2) hx1 hx2
      · try simp only []
        rw [sum_map_range_single _ s.width x1 hx1 (fun x hx hnex =>
            tile_pairs_count_zero s x y1 x1 y1 x2 y2 hx
              (fun hc => hnex hc.1) (fun hc => hy12 hc.2) hx1 hx2),
          sum_map_range_single _ s.width x2 hx2 (fun x hx hnex =>
            tile_pairs_count_zero s x y2 x1 y1 x2 y2 hx
              (fun hc => hy12 hc.2.symm) (fun hc => hnex hc.1) hx1 hx2),
          tile_pairs_count_source s x1 y1 x2 y2 hx1 hy1 hx2 hy2 hb1 hb2 hne12,
          countP_orient_swap (s.tile_pairs x2 y2) (tile_idx x1 y1 s.width)
            (tile_idx x2 y2 s.width),
          tile_pairs_count_source s x2 y2 x1 y1 hx2 hy2 hx1 hy1 hb2 hb1
            (Ne.symm hne12)]
        exact neighbors_one_direction _ _ _ _ (by ring) (by ring)
          hax1 hax2 hay1 hay2 (by omega)
  · intro deltas p hp
    exact (diffusion_pair_update_sends s.tile_atmos _ deltas p hp).1
  · intro ps hperm
    exact diffusion_deltas_order_invariant s _ ps hperm
  · have hfac : 0 < min (ATMOS_DIFFUSION_COEFF * dt) ATMOS_DIFFUSION_MAX_FRACTION := by
      refine lt_min ?_ ?_
      · have hc : (0 : F) < ATMOS_DIFFUSION_COEFF := by
          norm_num [ATMOS_DIFFUSION_COEFF]
        exact mul_pos hc hdt
      · norm_num [ATMOS_DIFFUSION_MAX_FRACTION]
    simp only [ShipInterior.step_atmosphere]
    rw [if_neg (not_le.mpr hdt), if_neg (not_le.mpr hfac)]

/-- Witness for C5 at the two-tile fixture ship with `dt = 1`: the undirected
floor pair `(0,0)–(1,0)` is visited exactly once by the sweep. -/
theorem step_atmosphere_pair_sweep_witness :
    witness_ship.diffusion_pairs.countP (fun pr =>
      decide (pr = (tile_idx 0 0 witness_ship.width, tile_idx 1 0 witness_ship.width)
        ∨ pr = (tile_idx 1 0 witness_ship.width, tile_idx 0 0 witness_ship.width))) = 1 :=
  (step_atmosphere_pair_sweep witness_ship 0 0 1 0 1 (by decide) (by decide)
    (by decide) (by decide) rfl rfl (by decide) (by decide) (by decide) (by decide)
    (by decide) (by norm_num)).1

/-! ## C8: body insertion, fresh ids and priming -/

/-- The one-call equation of `World::add_body` when the orbit propagates:
the pushed body is the input with its id freshened (only when it came in as
0), its radius derived from the hull when present, and its position and
velocity primed from the orbit at the current simulation time. -/
theorem add_body_spec (ops : TrigOps F) (w : World F) (b : BodyState F)
    (pv : Vec2 F × Vec2 F)
    (hpv : orbit_to_cartesian ops b.orbit w.mu w.sim_time = some pv) :
    w.add_body ops b = some
      ({ w with
          bodies := w.bodies ++ [{ b with
            id := if b.id = 0 then w.next_id else b.id,
            radius := (match b.hull_shape with
              | some shape => shape.bounding_radius ops
              | none => b.radius),
            position := pv.1,
            velocity := pv.2 }],
          next_id := if b.id = 0 then (w.next_id + 1) % 2 ^ 64 else w.next_id },
        if b.id = 0 then w.next_id else b.id) := by
  by_cases hid : b.id = 0 <;> rcases hhull : b.hull_shape with - | shape <;>
    simp [World.add_body, hid, hhull, hpv]

/-- `World::add_body` dies exactly with the `orbit_to_cartesian` assertion. -/
theorem add_body_none (ops : TrigOps F) (w : World F) (b : BodyState F)
    (h : orbit_to_cartesian ops b.orbit w.mu w.sim_time = none) :
    w.add_body ops b = none := by
  by_cases hid : b.id = 0 <;> rcases hhull : b.hull_shape with - | shape <;>
    simp [World.add_body, hid, hhull, h]

/-- A sequence of `World::add_body` calls (discarding the returned ids). -/
def World.add_bodies (ops : TrigOps F) : World F → List (BodyState F) → Option (World F)
  | w, [] => some w
  | w, b :: bs =>
    match w.add_body ops b with
    | none => none
    | some (w1, _) => w1.add_bodies ops bs

/-- Inserting only id-0 bodies preserves the registry invariant: ids are
nonzero, below `next_id`, and pairwise distinct. -/
theorem add_bodies_invariant (ops : TrigOps F) :
    ∀ (bs : List (BodyState F)) (w : World F),
      (∀ b ∈ bs, b.id = 0) →
      (∀ b ∈ w.bodies, 0 < b.id ∧ b.id < w.next_id) →
      (w.bodies.map BodyState.id).Pairwise Ne →
      0 < w.next_id →
      w.next_id + bs.length < 2 ^ 64 →
      ∀ w2, w.add_bodies ops bs = some w2 →
        (∀ b ∈ w2.bodies, 0 < b.id ∧ b.id < w2.next_id) ∧
        (w2.bodies.map BodyState.id).Pairwise Ne
  | [], w, _, hinv, hpw, _, _, w2, h2 => by
    obtain rfl : w = w2 := Option.some.inj h2
    exact ⟨hinv, hpw⟩
  | b :: bs, w, hz, hinv, hpw, hpos, hbound, w2, h2 => by
    have h64 : (2 : ℕ) ^ 64 = 18446744073709551616 := by norm_num
    have hidz : b.id = 0 := hz b (List.mem_cons_self b bs)
    simp only [World.add_bodies] at h2
    cases hor : orbit_to_cartesian ops b.orbit w.mu w.sim_time with
    | none =>
      rw [add_body_none ops w b hor] at h2
      exact Option.noConfusion h2
    | some pv =>
      rw [add_body_spec ops w b pv hor] at h2
      simp only [] at h2
      rw [if_pos hidz, if_pos hidz] at h2
      have hmod : (w.next_id + 1) % 2 ^ 64 = w.next_id + 1 :=
        Nat.mod_eq_of_lt (by simp only [List.length_cons] at hbound; omega)
      rw [hmod] at h2
      refine add_bodies_invariant ops bs _
        (fun q hq => hz q (List.mem_cons_of_mem b hq)) ?_ ?_ ?_ ?_ w2 h2
      · intro q hq
        rcases List.mem_append.mp hq with hq | hq
        · obtain ⟨hq1, hq2⟩ := hinv q hq
          refine ⟨hq1, ?_⟩
          show q.id < w.next_id + 1
          omega
        · obtain rfl := List.mem_singleton.mp hq
          exact ⟨hpos, Nat.lt_succ_self _⟩
      · rw [List.map_append, List.pairwise_append]
        refine ⟨hpw, List.pairwise_singleton _ _, ?_⟩
        intro a ha c hc
        obtain ⟨qb, hqb, rfl⟩ := List.mem_map.mp ha
        simp only [List.map_cons, List.map_nil, List.mem_singleton] at hc
        subst hc
        have hlt := (hinv qb hqb).2
        show qb.id ≠ w.next_id
        omega
      · show 0 < w.next_id + 1
        omega
      · show w.next_id + 1 + bs.length < 2 ^ 64
        simp only [List.length_cons] at hbound
        omega

/-- C8 (amended): each successful `add_body` pushes the input body with its
position and velocity primed from its orbit at the current simulation time,
its radius derived from the hull when one is present, and a fresh id when it
came in as 0; and after any sequence of id-0 insertions (with no `u64`
wrap-around) every body in the registry keeps a nonzero, pairwise-distinct
id. -/
theorem add_body_assigns_unique_ids (ops : TrigOps F) :
    (∀ (w : World F) (b : BodyState F) (pv : Vec2 F × Vec2 F),
      orbit_to_cartesian ops b.orbit w.mu w.sim_time = some pv →
      w.add_body ops b = some
        ({ w with
            bodies := w.bodies ++ [{ b with
              id := if b.id = 0 then w.next_id else b.id,
              radius := (match b.hull_shape with
                | some shape => shape.bounding_radius ops
                | none => b.radius),
              position := pv.1,
              velocity := pv.2 }],
            next_id := if b.id = 0 then (w.next_id + 1) % 2 ^ 64 else w.next_id },
          if b.id = 0 then w.next_id else b.id)) ∧
    (∀ (bs : List (BodyState F)) (w : World F),
      (∀ b ∈ bs, b.id = 0) →
      (∀ b ∈ w.bodies, 0 < b.id ∧ b.id < w.next_id) →
      (w.bodies.map BodyState.id).Pairwise Ne →
      0 < w.next_id →
      w.next_id + bs.length < 2 ^ 64 →
      ∀ w2, w.add_bodies ops bs = some w2 →
        (∀ b ∈ w2.bodies, 0 < b.id) ∧
        (w2.bodies.map BodyState.id).Pairwise Ne) :=
  ⟨fun w b pv hpv => add_body_spec ops w b pv hpv,
   fun bs w hz hinv hpw hpos hbound w2 h2 =>
     ⟨fun q hq => ((add_bodies_invariant ops bs w hz hinv hpw hpos hbound w2 h2).1 q hq).1,
      (add_bodies_invariant ops bs w hz hinv hpw hpos hbound w2 h2).2⟩⟩

/-- A fresh world over `ℚ` (mirrors `World::new`: empty registry, counter
starting at 1). -/
def qworld : World ℚ :=
  { mu := 1, sim_time := 0, bodies := [], planet_radius := 1,
    interior := witness_interior, config := qGameCfg, next_id := 1 }

/-- A body arriving with the caller-chosen nonzero id 5. -/
def qbody5 : BodyState ℚ :=
  { id := 5, mass := 1, radius := 1, orbit := ⟨1, 0, 0, 0, 0⟩,
    position := ⟨0, 0⟩, velocity := ⟨0, 0⟩, body_type := BodyType.Asteroid,
    hull_shape := none }

/-- The circular test orbit propagates (to the origin, under `qOps`). -/
theorem qorb_eval :
    orbit_to_cartesian qOps (⟨1, 0, 0, 0, 0⟩ : OrbitState ℚ) 1 0
      = some (⟨0, 0⟩, ⟨0, 0⟩) := by
  have hE : kepler_newton qOps 0 0 32 0 = 0 := by
    rw [show (32 : ℕ) = 31 + 1 from rfl, kepler_newton]
    norm_num [qOps]
  rw [orbit_to_cartesian,
    if_pos (by norm_num [orbit_precond] : orbit_precond (⟨1, 0, 0, 0, 0⟩ : OrbitState ℚ))]
  have hceil : (⌈((0 : ℚ) + 0 * (0 - 0) - 4) / (2 * 4)⌉ : ℤ) = 0 := by
    rw [Int.ceil_eq_iff] <;> norm_num
  norm_num [qOps, normalize_angle, hE, hceil]

/-- A body arriving with id 0, to be assigned a fresh id. -/
def qbody0 : BodyState ℚ :=
  { id := 0, mass := 1, radius := 1, orbit := ⟨1, 0, 0, 0, 0⟩,
    position := ⟨0, 0⟩, velocity := ⟨0, 0⟩, body_type := BodyType.Asteroid,
    hull_shape := none }

/-- The id-0 body as pushed: fresh id 1, primed at the origin. -/
def qbody0_added : BodyState ℚ :=
  { qbody0 with id := 1, position := ⟨0, 0⟩, velocity := ⟨0, 0⟩ }

/-- The fresh world after inserting the id-0 body. -/
def qworld1 : World ℚ := { qworld with bodies := [qbody0_added], next_id := 2 }

/-- Witness for C8: inserting one id-0 body into the fresh world really runs
(the registry gains the body under the fresh id 1), and the amended theorem
yields the nonzero, pairwise-distinct ids of the resulting registry. -/
theorem add_body_assigns_unique_ids_witness :
    qworld.add_bodies qOps [qbody0] = some qworld1 ∧
    qworld1.bodies.map BodyState.id = [1] ∧
    0 < qbody0_added.id ∧
    (qworld1.bodies.map BodyState.id).Pairwise Ne := by
  have h1 : qworld.add_body qOps qbody0 = some (qworld1, 1) := by
    rw [add_body_spec qOps qworld qbody0 (⟨0, 0⟩, ⟨0, 0⟩) qorb_eval]
    norm_num [qworld1, qbody0_added, qbody0, qworld]
  have hadd : qworld.add_bodies qOps [qbody0] = some qworld1 := by
    simp only [World.add_bodies]
    rw [h1]
  have happ := (add_body_assigns_unique_ids qOps).2 [qbody0] qworld
    (fun b hb => by obtain rfl := List.mem_singleton.mp hb; rfl)
    (fun b hb => absurd hb (List.not_mem_nil b))
    (by simp [qworld])
    (by norm_num [qworld])
    (by norm_num [qworld])
    qworld1 hadd
  exact ⟨hadd, by simp [qworld1, qbody0_added],
    happ.1 qbody0_added (by simp [qworld1]), happ.2⟩

/-- The inserted body after priming (position and velocity at the origin). -/
def c8_body : BodyState ℚ := { qbody5 with position := ⟨0, 0⟩, velocity := ⟨0, 0⟩ }

/-- The world after the first duplicate insertion. -/
def c8_w1 : World ℚ := { qworld with bodies := [c8_body] }

/-- The world after the second duplicate insertion. -/
def c8_w2 : World ℚ := { qworld with bodies := [c8_body, c8_body] }

/-- C8 counterexample: inserting the same caller-chosen nonzero id twice
leaves two bodies with equal ids — the registry ids are not unique for
arbitrary insertion sequences. -/
theorem add_body_duplicate_ids :
    ∃ (w1 w2 : World ℚ) (r1 r2 : ℕ),
      qworld.add_body qOps qbody5 = some (w1, r1) ∧
      w1.add_body qOps qbody5 = some (w2, r2) ∧
      w2.bodies.map BodyState.id = [5, 5] ∧
      ¬ (w2.bodies.map BodyState.id).Pairwise Ne := by
  have h1 : qworld.add_body qOps qbody5 = some (c8_w1, 5) := by
    rw [add_body_spec qOps qworld qbody5 (⟨0, 0⟩, ⟨0, 0⟩) qorb_eval]
    simp [c8_w1, c8_body, qbody5, qworld]
  have h2 : c8_w1.add_body qOps qbody5 = some (c8_w2, 5) := by
    rw [add_body_spec qOps c8_w1 qbody5 (⟨0, 0⟩, ⟨0, 0⟩) qorb_eval]
    simp [c8_w1, c8_w2, c8_body, qbody5, qworld]
  refine ⟨c8_w1, c8_w2, 5, 5, h1, h2, ?_, ?_⟩
  · simp [c8_w2, c8_body, qbody5]
  · have hmap : c8_w2.bodies.map BodyState.id = [5, 5] := by
      simp [c8_w2, c8_body, qbody5]
    rw [hmap]
    decide

/-! ## C3: phase ordering of one `World::step` tick -/

/-- The instrumented atmosphere loop is faithful to the plain one and emits
`[AtmosphereDiffusion, PawnBreathing]` once per executed fixed tick. -/
theorem atmos_steps_trace_shape [FloorRing F] (config : GameConfig F) (tick : F)
    (htick : f64Epsilon < tick) (iw0 : InteriorWorld F) :
    (InteriorWorld.atmos_steps_trace config tick htick iw0).1
        = InteriorWorld.atmos_steps config tick htick iw0 ∧
    ∃ k, (InteriorWorld.atmos_steps_trace config tick htick iw0).2
        = (List.replicate k
            [StepPhase.AtmosphereDiffusion, StepPhase.PawnBreathing]).flatten := by
  rw [InteriorWorld.atmos_steps_trace, InteriorWorld.atmos_steps]
  by_cases h : tick ≤ iw0.atmos_accumulator
  · rw [dif_pos h, dif_pos h]
    simp only []
    obtain ⟨hfst, k, hsnd⟩ := atmos_steps_trace_shape config tick htick
      { ({ iw0 with ship := iw0.ship.step_atmosphere tick } :
          InteriorWorld F).apply_pawn_atmos_effects tick config.atmosphere with
        atmos_accumulator := iw0.atmos_accumulator - tick }
    refine ⟨hfst, k + 1, ?_⟩
    rw [hsnd]
    simp [List.replicate_succ]
  · rw [dif_neg h, dif_neg h]
    exact ⟨rfl, 0, rfl⟩
termination_by (⌊iw0.atmos_accumulator / tick⌋).toNat
decreasing_by
  have htp : (0 : F) < tick := lt_trans f64Epsilon_pos htick
  have h1 : (iw0.atmos_accumulator - tick) / tick = iw0.atmos_accumulator / tick - 1 := by
    field_simp
  have h2 : (1 : ℤ) ≤ ⌊iw0.atmos_accumulator / tick⌋ := by
    rw [Int.le_floor]
    push_cast
    rw [le_div_iff htp]
    linarith
  simp only [h1, Int.floor_sub_one]
  omega

/-- The instrumented interior step is faithful and its trace is the command
labels in queue order, then the device and needs labels, then the atmosphere
tick labels. -/
theorem step_trace_spec (iw : InteriorWorld F) (dt : F) (config : GameConfig F) :
    (iw.step_trace dt config).1 = iw.step dt config ∧
    ∃ k, (iw.step_trace dt config).2
        = iw.command_queue.map StepPhase.Command
          ++ [StepPhase.DeviceStep, StepPhase.PawnNeeds]
          ++ (List.replicate k
              [StepPhase.AtmosphereDiffusion, StepPhase.PawnBreathing]).flatten := by
  simp only [InteriorWorld.step_trace, InteriorWorld.step]
  split_ifs with h
  · exact ⟨rfl, 0, by simp⟩
  · obtain ⟨hfst, k, hsnd⟩ := atmos_steps_trace_shape config
      config.atmosphere.tick_interval_s (not_le.mp h) _
    exact ⟨hfst, k, by rw [hsnd]⟩

/-- The world-level trace: a dead propagation stops in the advance phase;
otherwise the tick advances the bodies, culls, and only then processes the
queued commands followed by the interior phases. -/
theorem world_step_trace_shape (ops : TrigOps F) (w : World F) (dt : F) :
    (World.step_trace ops w dt).1 = World.step ops w dt ∧
    (World.step ops w dt = none →
      (World.step_trace ops w dt).2 = [StepPhase.AdvanceBodies]) ∧
    (∀ w2, World.step ops w dt = some w2 → ∃ k,
      (World.step_trace ops w dt).2
        = StepPhase.AdvanceBodies :: StepPhase.CullBodies ::
          (w.interior.command_queue.map StepPhase.Command
            ++ [StepPhase.DeviceStep, StepPhase.PawnNeeds]
            ++ (List.replicate k
                [StepPhase.AtmosphereDiffusion, StepPhase.PawnBreathing]).flatten)) := by
  simp only [World.step_trace, World.step]
  cases hmap : w.bodies.mapM (fun b =>
      (orbit_to_cartesian ops b.orbit w.mu (w.sim_time + dt)).map fun pv =>
        { b with position := pv.1, velocity := pv.2 }) with
  | none =>
    exact ⟨rfl, fun _ => rfl, fun w2 hcon => Option.noConfusion hcon⟩
  | some bodies1 =>
    simp only [World.cull_despawned_bodies]
    obtain ⟨hfst, k, hsnd⟩ := step_trace_spec (F := F) w.interior dt w.config
    refine ⟨by rw [hfst], fun hcon => Option.noConfusion hcon, fun w2 hw2 => ⟨k, ?_⟩⟩
    rw [hsnd]

/-- C3 (amended): within one `World::step` tick the pending interior commands
are dequeued and applied in FIFO order before the device/power, pawn-needs
and atmosphere phases, but only after the body advance and cull phases — the
tick starts with `AdvanceBodies` and `CullBodies`, not with the commands. -/
theorem world_step_phase_order (ops : TrigOps F) (w : World F) (dt : F) :
    (World.step_trace ops w dt).1 = World.step ops w dt ∧
    (World.step ops w dt = none →
      (World.step_trace ops w dt).2 = [StepPhase.AdvanceBodies]) ∧
    (∀ w2, World.step ops w dt = some w2 → ∃ k,
      (World.step_trace ops w dt).2
        = StepPhase.AdvanceBodies :: StepPhase.CullBodies ::
          (w.interior.command_queue.map StepPhase.Command
            ++ [StepPhase.DeviceStep, StepPhase.PawnNeeds]
            ++ (List.replicate k
                [StepPhase.AtmosphereDiffusion, StepPhase.PawnBreathing]).flatten)) :=
  world_step_trace_shape ops w dt

/-- The spec's claimed ordering: every command label precedes every body
advance / cull label. -/
def commands_first (tr : List StepPhase) : Prop :=
  ∀ i j c, tr.get? i = some (StepPhase.Command c) →
    (tr.get? j = some StepPhase.AdvanceBodies ∨
      tr.get? j = some StepPhase.CullBodies) →
    i < j

/-- A world with one queued command and no bodies. -/
def c3_world : World ℚ :=
  { qworld with interior :=
      { witness_interior with command_queue := [InteriorCommand.ToggleSleep] } }

/-- C3 counterexample: with a command queued, the tick's trace starts with
`AdvanceBodies` and the command label only appears later — commands are not
processed before the body physics of the tick. -/
theorem step_commands_not_first :
    ∃ tr : List StepPhase,
      (World.step_trace qOps c3_world 1).2 = tr ∧
      tr.get? 0 = some StepPhase.AdvanceBodies ∧
      tr.get? 2 = some (StepPhase.Command InteriorCommand.ToggleSleep) ∧
      ¬ commands_first tr := by
  obtain ⟨w2, hstep⟩ := (⟨_, rfl⟩ : ∃ w2, World.step qOps c3_world 1 = some w2)
  obtain ⟨k, hsnd⟩ := (world_step_trace_shape qOps c3_world 1).2.2 w2 hstep
  have hq : c3_world.interior.command_queue = [InteriorCommand.ToggleSleep] := rfl
  rw [hq] at hsnd
  refine ⟨_, hsnd, rfl, rfl, ?_⟩
  intro hcf
  have h20 := hcf 2 0 InteriorCommand.ToggleSleep rfl (Or.inl rfl)
  omega

/-- Witness for C3 at the fixture world: the instrumented tick agrees with
the plain tick and its first phase is the body advance. -/
theorem world_step_phase_order_witness :
    (World.step_trace qOps c3_world 1).1 = World.step qOps c3_world 1 ∧
    (World.step_trace qOps c3_world 1).2.get? 0 = some StepPhase.AdvanceBodies := by
  refine ⟨(world_step_phase_order qOps c3_world 1).1, ?_⟩
  obtain ⟨w2, hstep⟩ := (⟨_, rfl⟩ : ∃ w2, World.step qOps c3_world 1 = some w2)
  obtain ⟨k, hsnd⟩ := (world_step_phase_order qOps c3_world 1).2.2 w2 hstep
  rw [hsnd]
  rfl

end GGW
